import Mathlib

/-!
# yay: the number menu of `cmd.go`

A shallow embedding of `displayNumberMenu` (cmd.go, lines 300-411): the two
catalog queries, the numbered listing, the operator's selection and the two
loops that turn the selection into install targets.

Go `int` values are modelled by `Int`; slice indices and lengths by `Nat`.
The only arithmetic is `i + 1`, `len(pq) - i`, `i + 1 + len(pq)` and
`len(aq) - i + len(pq)` with `i` below the length of a slice held in memory,
so no machine overflow is reachable and no reduction modulo `2^64` is needed.
A Go `error` is an `Option GoError`, `none` being `nil`.

Names follow cmd.go. `include` is a reserved word of Lean, so the include set
of line 363 is called `incl`.
-/

namespace Yay

/-- A non-nil Go error, identified by its message. -/
abbrev GoError := String

/-- Values of `config.SortMode`: the two constants `settings.TopDown` and
`settings.BottomUp`, and every other value the integer field can hold. -/
inductive SortMode where
  | TopDown
  | BottomUp
  | other (n : Nat)
  deriving DecidableEq, Repr

/-- Values of `config.Runtime.Mode`: the three constants of package settings
and every other value the integer field can hold. -/
inductive TargetMode where
  | ModeAny
  | ModeAUR
  | ModeRepo
  | other (n : Nat)
  deriving DecidableEq, Repr

/-- Modelled from the spec: package intrange is not among the source files.
Section 4.1 builds the include and exclude sets from single positions `N` and
inclusive ranges `N-M`; one such range is kept as its two bounds. -/
structure IntRange where
  min : Int
  max : Int
  deriving DecidableEq, Repr

/-- Modelled from the spec: the include/exclude value returned by
`intrange.ParseNumberMenu`, a Go slice of ranges (cmd.go takes its `len`). -/
abbrev IntRanges := List IntRange

/-- Modelled from the spec: membership of a position in one inclusive range. -/
def IntRange.Get (r : IntRange) (n : Int) : Bool :=
  decide (r.min ≤ n) && decide (n ≤ r.max)

/-- Modelled from the spec: `IntRanges.Get`, membership of a position in the
set (`include.has(p)`, `exclude.has(p)` of section 4.3): some range holds it. -/
def IntRanges.Get (rs : IntRanges) (n : Int) : Bool :=
  rs.any (fun r => r.Get n)

/-- Modelled from the spec: the `other_exclude` set of strings of section 4.1
(cmd.go only takes its `len`). -/
abbrev StringSet := List String

/-- An entry of the local result sequence `pq`: what cmd.go reads from an
`alpm.Package`, namely `pkg.DB().Name()` and `pkg.Name()`. -/
structure RepoPkg where
  DB : String
  Name : String
  deriving DecidableEq, Repr

/-- An entry of the remote result sequence `aq`: what cmd.go reads from an
`rpc.Pkg`, namely its field `Name`. -/
structure AurPkg where
  Name : String
  deriving DecidableEq, Repr

/-- The type `repoQuery` of cmd.go, a slice of local packages. -/
abbrev repoQuery := List RepoPkg

/-- The type `aurQuery` of cmd.go, a slice of remote packages. -/
abbrev aurQuery := List AurPkg

/-- One command-line option held by `settings.Arguments`. -/
structure ArgOption where
  Name : String
  Global : Bool
  deriving DecidableEq, Repr

/-- The type `settings.Arguments` as far as cmd.go uses it: the operation,
the options and the slice `Targets`. -/
structure Arguments where
  Op : String
  Options : List ArgOption
  Targets : List String
  deriving DecidableEq, Repr

/-- Modelled from the spec: `Arguments.AddTarget` of package settings is not
among the source files. Install targets are handed on as a `list<string>`
(section 6) and cmd.go treats `Targets` as a Go slice (`len`, `append`, index);
adding a target appends it. -/
def Arguments.AddTarget (a : Arguments) (t : String) : Arguments :=
  { a with Targets := a.Targets ++ [t] }

/-- Modelled from the spec: `Arguments.CopyGlobal` of package settings is not
among the source files. The copy keeps the global options and starts with no
operation and no targets: the install targets of a session are exactly those
its reconciliation adds (section 3, Install Target). -/
def Arguments.CopyGlobal (a : Arguments) : Arguments :=
  { Op := "", Options := a.Options.filter (fun o => o.Global), Targets := [] }

/-- The error of lines 342, 376 and 393. -/
def invalidSortMode : GoError := "invalid sort mode. Fix with yay -Y --bottomup --save"

/-- The error of line 323. -/
def noPackagesMatch : GoError := "no packages match search"

/-- The error of line 360. -/
def inputTooLong : GoError := "input too long"

/-- Lines 369-377: the global position of the local entry at index `i`. -/
def repoTarget (sortMode : SortMode) (lenpq i : Nat) : Except GoError Int :=
  match sortMode with
  | .TopDown => .ok ((i : Int) + 1)
  | .BottomUp => .ok ((lenpq : Int) - (i : Int))
  | .other _ => .error invalidSortMode

/-- Lines 385-394: the global position of the remote entry at index `i`. -/
def aurTarget (sortMode : SortMode) (lenaq lenpq i : Nat) : Except GoError Int :=
  match sortMode with
  | .TopDown => .ok ((i : Int) + 1 + (lenpq : Int))
  | .BottomUp => .ok ((lenaq : Int) - (i : Int) + (lenpq : Int))
  | .other _ => .error invalidSortMode

/-- The condition of lines 379 and 396. -/
def isWanted (isInclude : Bool) (incl exclude : IntRanges) (target : Int) : Bool :=
  (isInclude && incl.Get target) || (!isInclude && !exclude.Get target)

/-- The target string of line 380. -/
def repoName (pkg : RepoPkg) : String :=
  pkg.DB ++ "/" ++ pkg.Name

/-- The target string of line 397. -/
def aurName (pkg : AurPkg) : String :=
  "aur/" ++ pkg.Name

/-- Lines 368-382: the loop over `pq`, from index `i` on. -/
def repoLoop (sortMode : SortMode) (isInclude : Bool) (incl exclude : IntRanges)
    (lenpq : Nat) : Nat → List RepoPkg → Arguments → Except GoError Arguments
  | _, [], arguments => .ok arguments
  | i, pkg :: rest, arguments =>
    match repoTarget sortMode lenpq i with
    | .error e => .error e
    | .ok target =>
      if isWanted isInclude incl exclude target then
        repoLoop sortMode isInclude incl exclude lenpq (i + 1) rest
          (arguments.AddTarget (repoName pkg))
      else
        repoLoop sortMode isInclude incl exclude lenpq (i + 1) rest arguments

/-- Lines 384-399: the loop over `aq`, from index `i` on. -/
def aurLoop (sortMode : SortMode) (isInclude : Bool) (incl exclude : IntRanges)
    (lenaq lenpq : Nat) : Nat → List AurPkg → Arguments → Except GoError Arguments
  | _, [], arguments => .ok arguments
  | i, pkg :: rest, arguments =>
    match aurTarget sortMode lenaq lenpq i with
    | .error e => .error e
    | .ok target =>
      if isWanted isInclude incl exclude target then
        aurLoop sortMode isInclude incl exclude lenaq lenpq (i + 1) rest
          (arguments.AddTarget (aurName pkg))
      else
        aurLoop sortMode isInclude incl exclude lenaq lenpq (i + 1) rest arguments

/-- Lines 366-399: from the parsed selection and the two result sequences to
the arguments handed to `install`. -/
def resolveTargets (sortMode : SortMode) (pq : repoQuery) (aq : aurQuery)
    (incl exclude : IntRanges) (otherExclude : StringSet) (arguments : Arguments) :
    Except GoError Arguments :=
  let isInclude := exclude.length == 0 && otherExclude.length == 0
  match repoLoop sortMode isInclude incl exclude pq.length 0 pq arguments with
  | .error e => .error e
  | .ok arguments =>
    aurLoop sortMode isInclude incl exclude aq.length pq.length 0 aq arguments

/-- What the listing and the two loops number: the local entry at index `i`
of `pq`, or the remote entry at index `j` of `aq`. -/
inductive Entry where
  | repo (i : Nat)
  | aur (j : Nat)
  deriving DecidableEq, Repr

/-- The entry names an element of the sequences of lengths `lenpq`, `lenaq`. -/
def Entry.valid (lenpq lenaq : Nat) : Entry → Prop
  | .repo i => i < lenpq
  | .aur j => j < lenaq

instance Entry.decValid (lenpq lenaq : Nat) : (e : Entry) → Decidable (e.valid lenpq lenaq)
  | .repo i => inferInstanceAs (Decidable (i < lenpq))
  | .aur j => inferInstanceAs (Decidable (j < lenaq))

/-- The global position the loops give to an entry (lines 369-377, 385-394). -/
def position (sortMode : SortMode) (lenpq lenaq : Nat) : Entry → Except GoError Int
  | .repo i => repoTarget sortMode lenpq i
  | .aur j => aurTarget sortMode lenaq lenpq j

/-- The entries in the order the two loops visit them: `pq`, then `aq`. -/
def entries (lenpq lenaq : Nat) : List Entry :=
  (List.range lenpq).map Entry.repo ++ (List.range lenaq).map Entry.aur

/-- The entry a global position denotes: the loops test every entry against
the selection, so position `p` denotes the entry whose computed target is `p`. -/
def entryAt (sortMode : SortMode) (lenpq lenaq : Nat) (p : Int) : Option Entry :=
  (entries lenpq lenaq).find? (fun e =>
    match position sortMode lenpq lenaq e with
    | .ok q => q == p
    | .error _ => false)

/-- What `displayNumberMenu` does that can be observed from outside, in the
order it happens. -/
inductive Event where
  /-- The call `pq.printSearch()` of lines 329 and 339. -/
  | printRepoSearch (pq : repoQuery)
  /-- The call `aq.printSearch(lenpq + 1)` of lines 332 and 336. -/
  | printAurSearch (aq : aurQuery) (start : Int)
  /-- The call `text.Errorln` of line 346, with the error of the remote query. -/
  | Errorln (aurErr : GoError)
  /-- The call `text.Warnln` of line 347. -/
  | Warnln (msg : String)
  /-- The calls `text.Infoln` and `text.Info` of lines 350-351. -/
  | Infoln (msg : String)
  /-- The call `reader.ReadLine()` of line 355. -/
  | ReadLine
  /-- The call `fmt.Println` of line 402. -/
  | Println (msg : String)
  /-- The call `sudoLoopBackground()` of line 407. -/
  | sudoLoopBackground
  /-- The call `install(arguments)` of line 410. -/
  | install (arguments : Arguments)
  deriving DecidableEq, Repr

/-- The globals and collaborators `displayNumberMenu` relies on: the
configuration, `cmdArgs`, the two catalog queries, the line read from standard
input (`numberBuf`, `overflow`, `err`), the selection parser and `install`.
None of `removeInvalidTargets`, `narrowSearch`, `queryRepo`,
`intrange.ParseNumberMenu` and `install` is defined in cmd.go; each is a
field here, so every statement holds whatever they return. What they print
or send themselves is not recorded. -/
structure Session where
  Mode : TargetMode
  SortMode : SortMode
  SudoLoop : Bool
  cmdArgs : Arguments
  removeInvalidTargets : List String → List String
  narrowSearch : List String → Bool → aurQuery × Option GoError
  queryRepo : List String → repoQuery × Option GoError
  ReadLine : String × Bool × Option GoError
  ParseNumberMenu : String → IntRanges × IntRanges × StringSet × StringSet
  install : Arguments → Option GoError

/-- One run of `displayNumberMenu`: the events in order and the returned
error (`none` is `nil`). -/
structure Run where
  events : List Event
  result : Option GoError
  deriving DecidableEq, Repr

/-- Lines 310 and 331: the remote catalog is consulted. -/
def TargetMode.wantsAUR (m : TargetMode) : Bool :=
  m == .ModeAUR || m == .ModeAny

/-- Lines 314 and 328: the local catalog is consulted. -/
def TargetMode.wantsRepo (m : TargetMode) : Bool :=
  m == .ModeRepo || m == .ModeAny

/-- Lines 326-343: the listing, in the order the sort mode asks for. -/
def printListing (mode : TargetMode) (sortMode : SortMode) (pq : repoQuery) (aq : aurQuery)
    (lenpq : Nat) : Except GoError (List Event) :=
  match sortMode with
  | .TopDown =>
    .ok ((if mode.wantsRepo then [Event.printRepoSearch pq] else []) ++
      (if mode.wantsAUR then [Event.printAurSearch aq ((lenpq : Int) + 1)] else []))
  | .BottomUp =>
    .ok ((if mode.wantsAUR then [Event.printAurSearch aq ((lenpq : Int) + 1)] else []) ++
      (if mode.wantsRepo then [Event.printRepoSearch pq] else []))
  | .other _ => .error invalidSortMode

/-- The warning of line 347. -/
def repoOnly : String := "Showing repo packages only"

/-- The request of line 350. -/
def packagesToInstall : String := "Packages to install (eg: 1 2 3, 1-3 or ^4)"

/-- The message of line 402. -/
def nothingToDo : String := " there is nothing to do"

/-- Lines 401-410: nothing to do on an empty target list, else `install`. -/
def finish (s : Session) (arguments : Arguments) : Run :=
  if arguments.Targets.length == 0 then
    { events := [Event.Println nothingToDo], result := none }
  else
    { events := (if s.SudoLoop then [Event.sudoLoopBackground] else []) ++
        [Event.install arguments],
      result := s.install arguments }

/-- Lines 345-348: the error of the remote query is printed with a warning. -/
def aurWarning (aurErr : Option GoError) : List Event :=
  match aurErr with
  | some e => [Event.Errorln e, Event.Warnln repoOnly]
  | none => []

/-- Lines 345-411: the warning, the prompt, the read, the reconciliation. -/
def selectAndInstall (s : Session) (pq : repoQuery) (aq : aurQuery)
    (aurErr : Option GoError) : Run :=
  let asked := aurWarning aurErr ++ [Event.Infoln packagesToInstall, Event.ReadLine]
  match s.ReadLine with
  | (_, _, some err) => { events := asked, result := some err }
  | (_, true, none) => { events := asked, result := some inputTooLong }
  | (numberBuf, false, none) =>
    match s.ParseNumberMenu numberBuf with
    | (incl, exclude, _, otherExclude) =>
      match resolveTargets s.SortMode pq aq incl exclude otherExclude s.cmdArgs.CopyGlobal with
      | .error e => { events := asked, result := some e }
      | .ok arguments =>
        let r := finish s arguments
        { events := asked ++ r.events, result := r.result }

/-- Lines 310-313: the remote query, run when the mode asks for it; `aq` and
`aurErr` keep their zero values otherwise. -/
def aurResults (s : Session) (pkgS : List String) : aurQuery × Option GoError :=
  if s.Mode.wantsAUR then s.narrowSearch pkgS true else ([], none)

/-- Lines 314-316: the local query, run when the mode asks for it; `pq` and
`repoErr` keep their zero values otherwise. -/
def repoResults (s : Session) (pkgS : List String) : repoQuery × Option GoError :=
  if s.Mode.wantsRepo then s.queryRepo pkgS else ([], none)

/-- The function `displayNumberMenu` of cmd.go (lines 300-411). -/
def displayNumberMenu (s : Session) (pkgS : List String) : Run :=
  let pkgS := s.removeInvalidTargets pkgS
  match aurResults s pkgS, repoResults s pkgS with
  | (aq, aurErr), (pq, repoErr) =>
    let lenaq := aq.length
    let lenpq := pq.length
    match repoErr with
    | some e => { events := [], result := some e }
    | none =>
      if lenpq == 0 && lenaq == 0 then
        { events := [], result := some noPackagesMatch }
      else
        match printListing s.Mode s.SortMode pq aq lenpq with
        | .error e => { events := [], result := some e }
        | .ok shown =>
          let r := selectAndInstall s pq aq aurErr
          { events := shown ++ r.events, result := r.result }

/-- A session for examples: mode `ModeAny`, the given sort mode, fixed query
results, a line read without error, the given parse of that line and an
`install` that succeeds. -/
def exampleSession (sortMode : SortMode) (pq : repoQuery) (aq : aurQuery)
    (aurErr : Option GoError) (incl exclude : IntRanges) (otherExclude : StringSet) :
    Session :=
  { Mode := .ModeAny
    SortMode := sortMode
    SudoLoop := false
    cmdArgs := ⟨"Y", [], ["foo"]⟩
    removeInvalidTargets := fun pkgS => pkgS
    narrowSearch := fun _ _ => (aq, aurErr)
    queryRepo := fun _ => (pq, none)
    ReadLine := ("1", false, none)
    ParseNumberMenu := fun _ => (incl, exclude, [], otherExclude)
    install := fun _ => none }

/-- The combined listing: every entry with its target string, in the order
the two loops visit them. -/
def listing (pq : repoQuery) (aq : aurQuery) : List (Entry × String) :=
  pq.enum.map (fun x => (Entry.repo x.1, repoName x.2)) ++
    aq.enum.map (fun x => (Entry.aur x.1, aurName x.2))

/-- The global position of the entry lies in the given set of positions. -/
def positionIn (sortMode : SortMode) (lenpq lenaq : Nat) (set : IntRanges) (e : Entry) : Bool :=
  match position sortMode lenpq lenaq e with
  | .ok target => set.Get target
  | .error _ => false

/-- The test of lines 379 and 396 on the position of an entry. -/
def chosen (sortMode : SortMode) (lenpq lenaq : Nat) (isInclude : Bool)
    (incl exclude : IntRanges) (e : Entry) : Bool :=
  match position sortMode lenpq lenaq e with
  | .ok target => isWanted isInclude incl exclude target
  | .error _ => false

/-- The selected entries of the combined listing, each with its target
string, in listing order: the entries whose position passes the test of
lines 379 and 396 under the mode line 366 derives from the parsed sets. -/
def selectedEntries (sortMode : SortMode) (pq : repoQuery) (aq : aurQuery)
    (incl exclude : IntRanges) (otherExclude : StringSet) : List (Entry × String) :=
  (listing pq aq).filter (fun x => chosen sortMode pq.length aq.length
    (exclude.length == 0 && otherExclude.length == 0) incl exclude x.1)

/-- The sort mode is one of the two the code accepts. -/
def SortMode.known (sortMode : SortMode) : Prop :=
  sortMode = .TopDown ∨ sortMode = .BottomUp

instance SortMode.decKnown (sortMode : SortMode) : Decidable sortMode.known :=
  inferInstanceAs (Decidable (sortMode = .TopDown ∨ sortMode = .BottomUp))


/-! ### The command router of cmd.go (lines 142-297 and 413-459) -/

/-- Values cmd.go gives to `config.SearchMode` (lines 248, 257, 259). -/
inductive SearchMode where
  | numberMenu
  | detailed
  | minimal
  deriving DecidableEq, Repr

/-- What `handleCmd` and the handlers it calls do that can be observed from
outside: the calls of functions that are not defined in cmd.go, the writes to
`config.SearchMode` and the lines printed by `syncList`. -/
inductive Action where
  /-- The call `usage()` of line 189. -/
  | usage
  /-- The call `sudoLoopBackground()` of line 148. -/
  | sudoLoopBackground
  /-- The call `handleVersion()` of line 153. -/
  | handleVersion
  /-- The call `show(passToPacman(args))`. -/
  | passToPacman (args : Arguments)
  /-- The call `printUpdateList(cmdArgs)` of lines 182 and 210. -/
  | printUpdateList (args : Arguments)
  /-- The call `removeVCSPackage(cmdArgs.Targets)` of line 293. -/
  | removeVCSPackage (targets : List String)
  /-- The assignment to `config.SearchMode`. -/
  | setSearchMode (mode : SearchMode)
  /-- The call `syncSearch(targets)` of line 261. -/
  | syncSearch (targets : List String)
  /-- The call `syncClean(cmdArgs)` of line 267. -/
  | syncClean (args : Arguments)
  /-- The call `syncInfo(targets)` of line 276. -/
  | syncInfo (targets : List String)
  /-- The call `install(cmdArgs)` of lines 279 and 282. -/
  | install (args : Arguments)
  /-- The call `getPkgbuilds(cmdArgs.Targets)` of line 244. -/
  | getPkgbuilds (targets : List String)
  /-- Lines 202-204: the default settings are printed. -/
  | printDefaultConfig
  /-- Line 206: the current configuration is printed. -/
  | printCurrentConfig
  /-- The call `printNumberOfUpdates()` of line 208. -/
  | printNumberOfUpdates
  /-- The call `news.PrintNewsFeed` of line 214. -/
  | PrintNewsFeed (double quiet : Bool)
  /-- The call `completion.Show` of lines 216 and 218, with its last argument. -/
  | completionShow (force : Bool)
  /-- The call `localStatistics()` of line 220. -/
  | localStatistics
  /-- The call `createDevelDB` of line 229. -/
  | createDevelDB
  /-- The call `cleanDependencies` of lines 232 and 235. -/
  | cleanDependencies (removeOptional : Bool)
  /-- The call `displayNumberMenu(cmdArgs.Targets)` of line 249. -/
  | displayNumberMenu (pkgS : List String)
  /-- The call `alpmHandle.LocalDB()` of line 424. -/
  | LocalDB
  /-- The call `http.Get` of line 429. -/
  | httpGet (url : String)
  /-- The calls `fmt.Println` of lines 441 and 449. -/
  | Println (line : String)
  /-- The call `fmt.Printf` of line 443, for one remote package name. -/
  | Printf (name : String)
  /-- The call `fmt.Print` of line 446. -/
  | Print
  deriving DecidableEq, Repr

/-- The globals and collaborators of `handleCmd`: `cmdArgs` with the answers
of its methods `ExistsArg`, `ExistsDouble` and `NeedRoot` (package settings,
not defined in cmd.go), the configuration, the error each recorded call
returns (`ret`), the answer of `alpmHandle.LocalDB()`, the lines of the body
`http.Get` fetches, and whether `localDB.Pkg(name)` is non-nil. -/
structure CmdState where
  cmdArgs : Arguments
  ExistsArg : List String → Bool
  ExistsDouble : List String → Bool
  NeedRoot : Bool
  Mode : TargetMode
  SudoLoop : Bool
  AURURL : String
  ret : Action → Option GoError
  LocalDB : Option GoError
  httpGet : String → Except GoError (List String)
  Pkg : String → Bool

/-- One run of `handleCmd`: the actions in order and the returned error. -/
structure CmdRun where
  actions : List Action
  result : Option GoError
  deriving DecidableEq, Repr

/-- A recorded call: the action, and the error it returns. -/
def CmdState.call (c : CmdState) (a : Action) : CmdRun :=
  { actions := [a], result := c.ret a }

/-- The error of line 177. -/
def unhandledOperation : GoError := "unhandled operation"

/-- The function `handleQuery` (lines 180-185). -/
def handleQuery (c : CmdState) : CmdRun :=
  if c.ExistsArg ["u", "upgrades"] then
    c.call (Action.printUpdateList c.cmdArgs)
  else
    c.call (Action.passToPacman c.cmdArgs)

/-- The function `handleHelp` (lines 187-193). -/
def handleHelp (c : CmdState) : CmdRun :=
  if c.cmdArgs.Op == "Y" || c.cmdArgs.Op == "yay" then
    { actions := [Action.usage], result := none }
  else
    c.call (Action.passToPacman c.cmdArgs)

/-- The function `handlePrint` (lines 199-225). -/
def handlePrint (c : CmdState) : CmdRun :=
  if c.ExistsArg ["d", "defaultconfig"] then
    { actions := [Action.printDefaultConfig], result := none }
  else if c.ExistsArg ["g", "currentconfig"] then
    { actions := [Action.printCurrentConfig], result := none }
  else if c.ExistsArg ["n", "numberupgrades"] then
    c.call Action.printNumberOfUpdates
  else if c.ExistsArg ["u", "upgrades"] then
    c.call (Action.printUpdateList c.cmdArgs)
  else if c.ExistsArg ["w", "news"] then
    c.call (Action.PrintNewsFeed (c.ExistsDouble ["w", "news"]) (c.ExistsArg ["q", "quiet"]))
  else if c.ExistsDouble ["c", "complete"] then
    c.call (Action.completionShow true)
  else if c.ExistsArg ["c", "complete"] then
    c.call (Action.completionShow false)
  else if c.ExistsArg ["s", "stats"] then
    c.call Action.localStatistics
  else
    { actions := [], result := none }

/-- The function `handleYogurt` (lines 247-250). -/
def handleYogurt (c : CmdState) : CmdRun :=
  { actions := [Action.setSearchMode .numberMenu, Action.displayNumberMenu c.cmdArgs.Targets],
    result := c.ret (Action.displayNumberMenu c.cmdArgs.Targets) }

/-- The function `handleYay` (lines 227-241). -/
def handleYay (c : CmdState) : CmdRun :=
  if c.ExistsArg ["gendb"] then
    c.call Action.createDevelDB
  else if c.ExistsDouble ["c"] then
    c.call (Action.cleanDependencies true)
  else if c.ExistsArg ["c", "clean"] then
    c.call (Action.cleanDependencies false)
  else if c.cmdArgs.Targets.length > 0 then
    handleYogurt c
  else
    { actions := [], result := none }

/-- The function `handleGetpkgbuild` (lines 243-245). -/
def handleGetpkgbuild (c : CmdState) : CmdRun :=
  c.call (Action.getPkgbuilds c.cmdArgs.Targets)

/-- The function `handleRemove` (lines 290-297). -/
def handleRemove (c : CmdState) : CmdRun :=
  match c.ret (Action.passToPacman c.cmdArgs) with
  | none =>
    { actions := [Action.passToPacman c.cmdArgs, Action.removeVCSPackage c.cmdArgs.Targets],
      result := none }
  | some err => { actions := [Action.passToPacman c.cmdArgs], result := some err }

/-- Lines 416-421 of `syncList`: the loop over `parser.Targets` from the last
index down, `n` being the loop variable plus one; a target `aur` is cut out
when the mode consults the remote catalog. -/
def syncListLoop (wantsAUR : Bool) : Nat → List String → Bool → List String × Bool
  | 0, targets, aur => (targets, aur)
  | i + 1, targets, aur =>
    if targets[i]? == some "aur" && wantsAUR then
      syncListLoop wantsAUR i (targets.eraseIdx i) true
    else
      syncListLoop wantsAUR i targets aur

/-- Lines 438-451 of `syncList`: what is printed for the names read. -/
def printAurList (c : CmdState) : List String → List Action
  | [] => []
  | name :: rest =>
    (if c.ExistsArg ["q", "quiet"] then
      [Action.Println name]
    else
      [Action.Printf name] ++ (if c.Pkg name then [Action.Print] else []) ++
        [Action.Println ""]) ++ printAurList c rest

/-- Lines 454-458 of `syncList`, after the actions `before`. -/
def syncListRepo (c : CmdState) (parser : Arguments) (aur : Bool) (before : List Action) :
    CmdRun :=
  if c.Mode.wantsRepo && (parser.Targets.length != 0 || !aur) then
    { actions := before ++ [Action.passToPacman parser],
      result := c.ret (Action.passToPacman parser) }
  else
    { actions := before, result := none }

/-- The function `syncList` (lines 413-459); the first line of the fetched
body is skipped (line 437). -/
def syncList (c : CmdState) (parser : Arguments) : CmdRun :=
  match syncListLoop c.Mode.wantsAUR parser.Targets.length parser.Targets false with
  | (targets, aur) =>
    let parser : Arguments := { parser with Targets := targets }
    if c.Mode.wantsAUR && (parser.Targets.length == 0 || aur) then
      match c.LocalDB with
      | some err => { actions := [Action.LocalDB], result := some err }
      | none =>
        match c.httpGet (c.AURURL ++ "/packages.gz") with
        | .error err =>
          { actions := [Action.LocalDB, Action.httpGet (c.AURURL ++ "/packages.gz")],
            result := some err }
        | .ok lines =>
          syncListRepo c parser aur
            ([Action.LocalDB, Action.httpGet (c.AURURL ++ "/packages.gz")] ++
              printAurList c (lines.drop 1))
    else
      syncListRepo c parser aur []

/-- The function `handleSync` (lines 252-288). -/
def handleSync (c : CmdState) : CmdRun :=
  let targets := c.cmdArgs.Targets
  if c.ExistsArg ["s", "search"] then
    let mode := if c.ExistsArg ["q", "quiet"] then SearchMode.minimal else SearchMode.detailed
    { actions := [Action.setSearchMode mode, Action.syncSearch targets],
      result := c.ret (Action.syncSearch targets) }
  else if c.ExistsArg ["p", "print", "print-format"] then
    c.call (Action.passToPacman c.cmdArgs)
  else if c.ExistsArg ["c", "clean"] then
    c.call (Action.syncClean c.cmdArgs)
  else if c.ExistsArg ["l", "list"] then
    syncList c c.cmdArgs
  else if c.ExistsArg ["g", "groups"] then
    c.call (Action.passToPacman c.cmdArgs)
  else if c.ExistsArg ["i", "info"] then
    c.call (Action.syncInfo targets)
  else if c.ExistsArg ["u", "sysupgrade"] then
    c.call (Action.install c.cmdArgs)
  else if c.cmdArgs.Targets.length > 0 then
    c.call (Action.install c.cmdArgs)
  else if c.ExistsArg ["y", "refresh"] then
    c.call (Action.passToPacman c.cmdArgs)
  else
    { actions := [], result := none }

/-- Lines 151-177 of `handleCmd`: the switch on `cmdArgs.Op`. -/
def handleOp (c : CmdState) : CmdRun :=
  let op := c.cmdArgs.Op
  if op == "V" || op == "version" then
    { actions := [Action.handleVersion], result := none }
  else if op == "D" || op == "database" then
    c.call (Action.passToPacman c.cmdArgs)
  else if op == "F" || op == "files" then
    c.call (Action.passToPacman c.cmdArgs)
  else if op == "Q" || op == "query" then
    handleQuery c
  else if op == "R" || op == "remove" then
    handleRemove c
  else if op == "S" || op == "sync" then
    handleSync c
  else if op == "T" || op == "deptest" then
    c.call (Action.passToPacman c.cmdArgs)
  else if op == "U" || op == "upgrade" then
    c.call (Action.passToPacman c.cmdArgs)
  else if op == "G" || op == "getpkgbuild" then
    handleGetpkgbuild c
  else if op == "P" || op == "show" then
    handlePrint c
  else if op == "Y" || op == "--yay" then
    handleYay c
  else
    { actions := [], result := some unhandledOperation }

/-- The function `handleCmd` (lines 142-178). -/
def handleCmd (c : CmdState) : CmdRun :=
  if c.ExistsArg ["h", "help"] then
    handleHelp c
  else
    let r := handleOp c
    { actions := (if c.SudoLoop && c.NeedRoot then [Action.sudoLoopBackground] else []) ++
        r.actions,
      result := r.result }

/-- A command state for examples: the given operation, flags, targets and
source mode, no sudo loop, every recorded call succeeding, a local database
that opens, a fetched body of a header line and the two names `foo`, `bar`,
of which `foo` is installed. -/
def exampleCmd (op : String) (flags : List String) (targets : List String)
    (mode : TargetMode) : CmdState :=
  { cmdArgs := ⟨op, flags.map (fun f => ⟨f, false⟩), targets⟩
    ExistsArg := fun names => names.any (fun n => flags.contains n)
    ExistsDouble := fun _ => false
    NeedRoot := false
    Mode := mode
    SudoLoop := false
    AURURL := "https://aur.archlinux.org"
    ret := fun _ => none
    LocalDB := none
    httpGet := fun _ => .ok ["# AUR package list", "foo", "bar"]
    Pkg := fun name => name == "foo" }

end Yay

namespace Yay

/-! ## The two loops -/

theorem repoLoop_ok (sortMode : SortMode) (hm : sortMode.known) (isInclude : Bool)
    (incl exclude : IntRanges) (lenpq lenaq : Nat) :
    ∀ (rest : List RepoPkg) (i : Nat) (arguments : Arguments),
      repoLoop sortMode isInclude incl exclude lenpq i rest arguments =
        .ok { arguments with Targets := (arguments.Targets ++
          (((rest.enumFrom i).map (fun x => (Entry.repo x.1, repoName x.2))).filter
            (fun x => chosen sortMode lenpq lenaq isInclude incl exclude x.1)).map
              (fun x => x.2)) } := by
  intro rest
  induction rest with
  | nil => intro i arguments; simp [repoLoop]
  | cons pkg rest ih =>
    intro i arguments
    rcases hm with rfl | rfl
    · have hc : chosen .TopDown lenpq lenaq isInclude incl exclude (Entry.repo i) =
          isWanted isInclude incl exclude ((i : Int) + 1) := rfl
      simp only [repoLoop, repoTarget, List.enumFrom_cons, List.map_cons, List.filter_cons, hc]
      split <;> simp [ih, Arguments.AddTarget]
    · have hc : chosen .BottomUp lenpq lenaq isInclude incl exclude (Entry.repo i) =
          isWanted isInclude incl exclude ((lenpq : Int) - (i : Int)) := rfl
      simp only [repoLoop, repoTarget, List.enumFrom_cons, List.map_cons, List.filter_cons, hc]
      split <;> simp [ih, Arguments.AddTarget]

theorem aurLoop_ok (sortMode : SortMode) (hm : sortMode.known) (isInclude : Bool)
    (incl exclude : IntRanges) (lenpq lenaq : Nat) :
    ∀ (rest : List AurPkg) (i : Nat) (arguments : Arguments),
      aurLoop sortMode isInclude incl exclude lenaq lenpq i rest arguments =
        .ok { arguments with Targets := (arguments.Targets ++
          (((rest.enumFrom i).map (fun x => (Entry.aur x.1, aurName x.2))).filter
            (fun x => chosen sortMode lenpq lenaq isInclude incl exclude x.1)).map
              (fun x => x.2)) } := by
  intro rest
  induction rest with
  | nil => intro i arguments; simp [aurLoop]
  | cons pkg rest ih =>
    intro i arguments
    rcases hm with rfl | rfl
    · have hc : chosen .TopDown lenpq lenaq isInclude incl exclude (Entry.aur i) =
          isWanted isInclude incl exclude ((i : Int) + 1 + (lenpq : Int)) := rfl
      simp only [aurLoop, aurTarget, List.enumFrom_cons, List.map_cons, List.filter_cons, hc]
      split <;> simp [ih, Arguments.AddTarget]
    · have hc : chosen .BottomUp lenpq lenaq isInclude incl exclude (Entry.aur i) =
          isWanted isInclude incl exclude ((lenaq : Int) - (i : Int) + (lenpq : Int)) := rfl
      simp only [aurLoop, aurTarget, List.enumFrom_cons, List.map_cons, List.filter_cons, hc]
      split <;> simp [ih, Arguments.AddTarget]

theorem resolveTargets_ok (sortMode : SortMode) (hm : sortMode.known) (pq : repoQuery)
    (aq : aurQuery) (incl exclude : IntRanges) (otherExclude : StringSet)
    (arguments : Arguments) :
    resolveTargets sortMode pq aq incl exclude otherExclude arguments =
      .ok { arguments with Targets := (arguments.Targets ++
        ((listing pq aq).filter (fun x => chosen sortMode pq.length aq.length
          (exclude.length == 0 && otherExclude.length == 0) incl exclude x.1)).map
            (fun x => x.2)) } := by
  unfold resolveTargets
  simp only [repoLoop_ok sortMode hm _ incl exclude pq.length aq.length,
    aurLoop_ok sortMode hm _ incl exclude pq.length aq.length, listing, List.enum_eq_enumFrom,
    List.filter_append, List.map_append, List.append_assoc]

theorem chosen_include (sortMode : SortMode) (lenpq lenaq : Nat) (incl exclude : IntRanges) :
    chosen sortMode lenpq lenaq true incl exclude = positionIn sortMode lenpq lenaq incl := by
  funext e
  unfold chosen positionIn
  split <;> simp [isWanted]

theorem chosen_exclude (sortMode : SortMode) (hm : sortMode.known) (lenpq lenaq : Nat)
    (incl exclude : IntRanges) :
    chosen sortMode lenpq lenaq false incl exclude =
      fun e => !positionIn sortMode lenpq lenaq exclude e := by
  funext e
  rcases hm with rfl | rfl <;> cases e <;>
    simp [chosen, positionIn, position, repoTarget, aurTarget, isWanted]

theorem two_entries (pq : repoQuery) (aq : aurQuery) (h : pq.length + aq.length = 2) :
    (∃ a b, pq = [a, b] ∧ aq = []) ∨ (∃ a x, pq = [a] ∧ aq = [x]) ∨
      (∃ x y, pq = [] ∧ aq = [x, y]) := by
  rcases pq with _ | ⟨a, _ | ⟨b, _ | ⟨c, pq⟩⟩⟩ <;>
    rcases aq with _ | ⟨x, _ | ⟨y, _ | ⟨z, aq⟩⟩⟩ <;>
    simp at h <;> first | omega | simp

/-! ## Include mode and exclude mode -/

/-- C1: under TopDown or BottomUp, with an empty exclude set and an empty
other-exclude set, the targets `displayNumberMenu` adds are the target strings
of exactly those entries of the combined listing whose global position is in
the include set, in the order of the two loops; nothing else is added. -/
theorem include_mode_targets (sortMode : SortMode) (hm : sortMode.known) (pq : repoQuery)
    (aq : aurQuery) (incl : IntRanges) (arguments : Arguments) :
    resolveTargets sortMode pq aq incl [] [] arguments =
      .ok { arguments with Targets := (arguments.Targets ++
        ((listing pq aq).filter
          (fun x => positionIn sortMode pq.length aq.length incl x.1)).map (fun x => x.2)) } := by
  rw [resolveTargets_ok sortMode hm]
  simp [chosen_include]

theorem include_mode_targets_witness :
    SortMode.known .BottomUp ∧
    resolveTargets .BottomUp [⟨"core", "A"⟩, ⟨"extra", "B"⟩] [⟨"X"⟩] [⟨1, 1⟩, ⟨3, 3⟩] [] []
        ⟨"", [], []⟩ =
      .ok { (⟨"", [], []⟩ : Arguments) with Targets := (([] : List String) ++
        ((listing [⟨"core", "A"⟩, ⟨"extra", "B"⟩] [⟨"X"⟩]).filter
          (fun x => positionIn .BottomUp 2 1 [⟨1, 1⟩, ⟨3, 3⟩] x.1)).map (fun x => x.2)) } ∧
    resolveTargets .BottomUp [⟨"core", "A"⟩, ⟨"extra", "B"⟩] [⟨"X"⟩] [⟨1, 1⟩, ⟨3, 3⟩] [] []
        ⟨"", [], []⟩ = .ok ⟨"", [], ["extra/B", "aur/X"]⟩ :=
  ⟨Or.inr rfl,
    include_mode_targets .BottomUp (Or.inr rfl) [⟨"core", "A"⟩, ⟨"extra", "B"⟩] [⟨"X"⟩]
      [⟨1, 1⟩, ⟨3, 3⟩] ⟨"", [], []⟩,
    rfl⟩

/-- C2: under TopDown or BottomUp, with a non-empty exclude set and an empty
other-exclude set, the targets added are the target strings of exactly those
entries whose global position is not in the exclude set, whatever the include
set holds; and with exclude = {1} on a combined listing of two entries exactly
one target is added, that of the entry at global position 2. -/
theorem exclude_mode_targets (sortMode : SortMode) (hm : sortMode.known) (pq : repoQuery)
    (aq : aurQuery) (incl exclude : IntRanges) (arguments : Arguments) (hex : exclude ≠ []) :
    resolveTargets sortMode pq aq incl exclude [] arguments =
      .ok { arguments with Targets := (arguments.Targets ++
        ((listing pq aq).filter
          (fun x => !positionIn sortMode pq.length aq.length exclude x.1)).map
            (fun x => x.2)) } ∧
    (pq.length + aq.length = 2 →
      ∃ x ∈ listing pq aq, position sortMode pq.length aq.length x.1 = .ok 2 ∧
        resolveTargets sortMode pq aq incl [⟨1, 1⟩] [] arguments =
          .ok { arguments with Targets := arguments.Targets ++ [x.2] }) := by
  constructor
  · rw [resolveTargets_ok sortMode hm]
    have h : (exclude.length == 0 && ([] : StringSet).length == 0) = false := by
      cases exclude with
      | nil => exact absurd rfl hex
      | cons r rs => simp
    rw [h, chosen_exclude sortMode hm]
  · intro hlen
    rw [resolveTargets_ok sortMode hm]
    have h : (([⟨1, 1⟩] : IntRanges).length == 0 && ([] : StringSet).length == 0) = false := by
      simp
    rw [h, chosen_exclude sortMode hm]
    have hget : ∀ t : Int, IntRanges.Get [⟨1, 1⟩] t = decide (t = 1) := by
      intro t
      simp only [IntRanges.Get, IntRange.Get, List.any_cons, List.any_nil, Bool.or_false,
        ← Bool.decide_and, decide_eq_decide]
      omega
    rcases two_entries pq aq hlen with ⟨a, b, rfl, rfl⟩ | ⟨a, x, rfl, rfl⟩ | ⟨x, y, rfl, rfl⟩
    · rcases hm with rfl | rfl
      · exact ⟨(Entry.repo 1, repoName b), by simp [listing, List.enum_eq_enumFrom], rfl, by
          simp [listing, List.enum_eq_enumFrom, positionIn, position, repoTarget, hget]⟩
      · exact ⟨(Entry.repo 0, repoName a), by simp [listing, List.enum_eq_enumFrom], rfl, by
          simp [listing, List.enum_eq_enumFrom, positionIn, position, repoTarget, hget]⟩
    · rcases hm with rfl | rfl
      · exact ⟨(Entry.aur 0, aurName x), by simp [listing, List.enum_eq_enumFrom], rfl, by
          simp [listing, List.enum_eq_enumFrom, positionIn, position, repoTarget, aurTarget,
            hget]⟩
      · exact ⟨(Entry.aur 0, aurName x), by simp [listing, List.enum_eq_enumFrom], rfl, by
          simp [listing, List.enum_eq_enumFrom, positionIn, position, repoTarget, aurTarget,
            hget]⟩
    · rcases hm with rfl | rfl
      · exact ⟨(Entry.aur 1, aurName y), by simp [listing, List.enum_eq_enumFrom], rfl, by
          simp [listing, List.enum_eq_enumFrom, positionIn, position, aurTarget, hget]⟩
      · exact ⟨(Entry.aur 0, aurName x), by simp [listing, List.enum_eq_enumFrom], rfl, by
          simp [listing, List.enum_eq_enumFrom, positionIn, position, aurTarget, hget]⟩

theorem exclude_mode_targets_witness :
    SortMode.known .BottomUp ∧ ([⟨1, 1⟩] : IntRanges) ≠ [] ∧
    resolveTargets .BottomUp [⟨"core", "A"⟩] [⟨"X"⟩] [⟨1, 1⟩] [⟨1, 1⟩] [] ⟨"", [], []⟩ =
      .ok ⟨"", [], ["aur/X"]⟩ ∧
    (∃ x ∈ listing [⟨"core", "A"⟩] [⟨"X"⟩], position .BottomUp 1 1 x.1 = .ok 2 ∧
      resolveTargets .BottomUp [⟨"core", "A"⟩] [⟨"X"⟩] [⟨1, 1⟩] [⟨1, 1⟩] [] ⟨"", [], []⟩ =
        .ok { (⟨"", [], []⟩ : Arguments) with Targets := ([] : List String) ++ [x.2] }) :=
  ⟨Or.inr rfl, by simp,
    (exclude_mode_targets .BottomUp (Or.inr rfl) [⟨"core", "A"⟩] [⟨"X"⟩] [⟨1, 1⟩] [⟨1, 1⟩]
      ⟨"", [], []⟩ (by simp)).1,
    (exclude_mode_targets .BottomUp (Or.inr rfl) [⟨"core", "A"⟩] [⟨"X"⟩] [⟨1, 1⟩] [⟨1, 1⟩]
      ⟨"", [], []⟩ (by simp)).2 rfl⟩

/-! ## The numbering of the combined listing -/

theorem mem_entries (lenpq lenaq : Nat) (e : Entry) :
    e ∈ entries lenpq lenaq ↔ e.valid lenpq lenaq := by
  cases e <;> simp [entries, Entry.valid]

theorem position_range (sortMode : SortMode) (hm : sortMode.known) (lenpq lenaq : Nat)
    (e : Entry) (he : e.valid lenpq lenaq) :
    ∃ p : Int, position sortMode lenpq lenaq e = .ok p ∧ 1 ≤ p ∧
      p ≤ (lenpq : Int) + (lenaq : Int) := by
  rcases hm with rfl | rfl <;> cases e <;>
    simp only [position, repoTarget, aurTarget, Entry.valid] at he ⊢ <;>
    exact ⟨_, rfl, by omega, by omega⟩

theorem position_injective (sortMode : SortMode) (lenpq lenaq : Nat) (e e' : Entry) (p : Int)
    (he : e.valid lenpq lenaq) (he' : e'.valid lenpq lenaq)
    (h : position sortMode lenpq lenaq e = .ok p)
    (h' : position sortMode lenpq lenaq e' = .ok p) : e' = e := by
  cases sortMode <;> cases e <;> cases e' <;>
    simp only [position, repoTarget, aurTarget, Entry.valid, Except.ok.injEq,
      Entry.repo.injEq, Entry.aur.injEq, reduceCtorEq] at he he' h h' ⊢ <;>
    omega

theorem position_surjective (sortMode : SortMode) (hm : sortMode.known) (lenpq lenaq : Nat)
    (p : Int) (h1 : 1 ≤ p) (h2 : p ≤ (lenpq : Int) + (lenaq : Int)) :
    ∃ e : Entry, e.valid lenpq lenaq ∧ position sortMode lenpq lenaq e = .ok p := by
  rcases hm with rfl | rfl
  · by_cases hp : p ≤ lenpq
    · refine ⟨Entry.repo (p - 1).toNat, ?_, ?_⟩
      · simp only [Entry.valid]; omega
      · simp only [position, repoTarget, Except.ok.injEq]; omega
    · refine ⟨Entry.aur (p - 1 - lenpq).toNat, ?_, ?_⟩
      · simp only [Entry.valid]; omega
      · simp only [position, aurTarget, Except.ok.injEq]; omega
  · by_cases hp : p ≤ lenpq
    · refine ⟨Entry.repo (lenpq - p).toNat, ?_, ?_⟩
      · simp only [Entry.valid]; omega
      · simp only [position, repoTarget, Except.ok.injEq]; omega
    · refine ⟨Entry.aur (lenaq + lenpq - p).toNat, ?_, ?_⟩
      · simp only [Entry.valid]; omega
      · simp only [position, aurTarget, Except.ok.injEq]; omega

theorem entryAt_position (sortMode : SortMode) (lenpq lenaq : Nat) (e : Entry) (p : Int)
    (he : e.valid lenpq lenaq) (h : position sortMode lenpq lenaq e = .ok p) :
    entryAt sortMode lenpq lenaq p = some e := by
  unfold entryAt
  cases hf : (entries lenpq lenaq).find? (fun e =>
    match position sortMode lenpq lenaq e with
    | .ok q => q == p
    | .error _ => false) with
  | none =>
    rw [List.find?_eq_none] at hf
    have := hf e ((mem_entries lenpq lenaq e).2 he)
    simp [h] at this
  | some e' =>
    have hv : e'.valid lenpq lenaq := (mem_entries lenpq lenaq e').1 (List.mem_of_find?_eq_some hf)
    have hp := List.find?_some hf
    have hp' : position sortMode lenpq lenaq e' = .ok p := by
      cases hq : position sortMode lenpq lenaq e' with
      | error x => simp [hq] at hp
      | ok q => simp [hq] at hp; simp [hp]
    rw [position_injective sortMode lenpq lenaq e e' p he hv h hp']

theorem listing_fst (pq : repoQuery) (aq : aurQuery) :
    (listing pq aq).map Prod.fst = entries pq.length aq.length := by
  have h1 : (pq.enum.map (fun x => (Entry.repo x.1, repoName x.2))).map Prod.fst =
      (pq.enum.map Prod.fst).map Entry.repo := by
    simp only [List.map_map]; rfl
  have h2 : (aq.enum.map (fun x => (Entry.aur x.1, aurName x.2))).map Prod.fst =
      (aq.enum.map Prod.fst).map Entry.aur := by
    simp only [List.map_map]; rfl
  simp only [listing, entries, List.map_append, h1, h2, List.enum_map_fst]

theorem listing_snd (pq : repoQuery) (aq : aurQuery) :
    (listing pq aq).map Prod.snd = pq.map repoName ++ aq.map aurName := by
  have h1 : (pq.enum.map (fun x => (Entry.repo x.1, repoName x.2))).map Prod.snd =
      (pq.enum.map Prod.snd).map repoName := by
    simp only [List.map_map]; rfl
  have h2 : (aq.enum.map (fun x => (Entry.aur x.1, aurName x.2))).map Prod.snd =
      (aq.enum.map Prod.snd).map aurName := by
    simp only [List.map_map]; rfl
  simp only [listing, List.map_append, h1, h2, List.enum_map_snd]

theorem entries_nodup (lenpq lenaq : Nat) : (entries lenpq lenaq).Nodup := by
  unfold entries
  refine List.Nodup.append ?_ ?_ ?_
  · exact (List.nodup_range lenpq).map (fun a b h => by injection h)
  · exact (List.nodup_range lenaq).map (fun a b h => by injection h)
  · intro e h1 h2
    simp only [List.mem_map] at h1 h2
    obtain ⟨i, _, rfl⟩ := h1
    obtain ⟨j, _, hj⟩ := h2
    cases hj

theorem repo_mem_listing (pq : repoQuery) (aq : aurQuery) (i : Nat) (h : i < pq.length) :
    (Entry.repo i, repoName pq[i]) ∈ listing pq aq := by
  simp only [listing, List.mem_append, List.mem_map]
  exact Or.inl ⟨(i, pq[i]), List.mk_mem_enum_iff_getElem?.2 (List.getElem?_eq_getElem h), rfl⟩

theorem aur_mem_listing (pq : repoQuery) (aq : aurQuery) (j : Nat) (h : j < aq.length) :
    (Entry.aur j, aurName aq[j]) ∈ listing pq aq := by
  simp only [listing, List.mem_append, List.mem_map]
  exact Or.inr ⟨(j, aq[j]), List.mk_mem_enum_iff_getElem?.2 (List.getElem?_eq_getElem h), rfl⟩

theorem filter_one (c : Entry → Bool) (e : Entry) (name : String) :
    ∀ l : List (Entry × String), (l.map Prod.fst).Nodup → (e, name) ∈ l →
      (∀ x ∈ l, c x.1 = true ↔ x.1 = e) →
      (l.filter (fun x => c x.1)).map (fun x => x.2) = [name] := by
  intro l
  induction l with
  | nil => intro _ h; simp at h
  | cons x l ih =>
    intro hnd hmem hc
    simp only [List.map_cons, List.nodup_cons] at hnd
    rcases List.mem_cons.1 hmem with rfl | hin
    · have hx : c e = true := (hc (e, name) (List.mem_cons_self _ _)).2 rfl
      have hrest : l.filter (fun x => c x.1) = [] := by
        rw [List.filter_eq_nil_iff]
        intro y hy hcy
        have hye : y.1 = e := (hc y (List.mem_cons_of_mem _ hy)).1 hcy
        have hin : e ∈ l.map Prod.fst := by
          rw [← hye]; exact List.mem_map_of_mem Prod.fst hy
        exact hnd.1 hin
      simp [List.filter_cons, hx, hrest]
    · have hne : x.1 ≠ e := by
        intro hxe
        have hin2 : x.1 ∈ l.map Prod.fst := by
          rw [hxe]; exact List.mem_map_of_mem Prod.fst hin
        exact hnd.1 hin2
      have hx : c x.1 = false := by
        cases hcx : c x.1 with
        | false => rfl
        | true => exact absurd ((hc x (List.mem_cons_self _ _)).1 hcx) hne
      simp only [List.filter_cons, hx]
      exact ih hnd.2 hin (fun y hy => hc y (List.mem_cons_of_mem _ hy))

theorem positionIn_single (sortMode : SortMode) (lenpq lenaq : Nat) (p : Int) (e : Entry) :
    positionIn sortMode lenpq lenaq [⟨p, p⟩] e = true ↔
      position sortMode lenpq lenaq e = .ok p := by
  unfold positionIn
  cases position sortMode lenpq lenaq e with
  | error x => simp
  | ok q =>
    simp only [IntRanges.Get, IntRange.Get, List.any_cons, List.any_nil, Bool.or_false,
      Bool.and_eq_true, decide_eq_true_eq, Except.ok.injEq]
    omega

theorem select_one (sortMode : SortMode) (hm : sortMode.known) (pq : repoQuery)
    (aq : aurQuery) (e : Entry) (name : String) (p : Int) (arguments : Arguments)
    (hmem : (e, name) ∈ listing pq aq)
    (hp : position sortMode pq.length aq.length e = .ok p) :
    resolveTargets sortMode pq aq [⟨p, p⟩] [] [] arguments =
      .ok (arguments.AddTarget name) := by
  rw [resolveTargets_ok sortMode hm]
  have hsel : ((listing pq aq).filter (fun x => chosen sortMode pq.length aq.length
      (([] : IntRanges).length == 0 && ([] : StringSet).length == 0) [⟨p, p⟩] [] x.1)).map
        (fun x => x.2) = [name] := by
    have h0 : (([] : IntRanges).length == 0 && ([] : StringSet).length == 0) = true := rfl
    rw [h0, chosen_include]
    refine filter_one _ e name _ ?_ hmem ?_
    · rw [listing_fst]; exact entries_nodup _ _
    · intro x hx
      have hv : x.1.valid pq.length aq.length := by
        rw [← mem_entries, ← listing_fst]
        exact List.mem_map_of_mem Prod.fst hx
      have he : e.valid pq.length aq.length := by
        rw [← mem_entries, ← listing_fst]
        exact List.mem_map_of_mem Prod.fst hmem
      rw [positionIn_single]
      constructor
      · intro h; exact position_injective sortMode _ _ e x.1 p he hv hp h
      · intro h; rw [h]; exact hp
  rw [hsel]
  rfl

/-- C3, as the claim states it, fails: under BottomUp with local = [A, B] and
remote = [X, Y, Z] the last remote entry Z gets global position 3, not 1, the
first local entry A gets position 2, not 5, and the positions 1, 2, 3, 4, 5
denote B, A, Z, Y, X, not Z, Y, X, B, A. -/
theorem bottomUp_numbering_counterexample :
    position .BottomUp 2 3 (.aur 2) = .ok 3 ∧
    position .BottomUp 2 3 (.aur 2) ≠ .ok ((3 : Int) - 2) ∧
    position .BottomUp 2 3 (.repo 0) = .ok 2 ∧
    position .BottomUp 2 3 (.repo 0) ≠ .ok ((3 : Int) + (2 - 0)) ∧
    [1, 2, 3, 4, 5].map (fun p =>
      resolveTargets .BottomUp [⟨"core", "A"⟩, ⟨"core", "B"⟩] [⟨"X"⟩, ⟨"Y"⟩, ⟨"Z"⟩]
        [⟨p, p⟩] [] [] ⟨"", [], []⟩) =
      [.ok ⟨"", [], ["core/B"]⟩, .ok ⟨"", [], ["core/A"]⟩, .ok ⟨"", [], ["aur/Z"]⟩,
        .ok ⟨"", [], ["aur/Y"]⟩, .ok ⟨"", [], ["aur/X"]⟩] := by
  refine ⟨rfl, ?_, rfl, ?_, rfl⟩
  · simp [position, aurTarget]
  · simp [position, repoTarget]

/-- C3, amended: under BottomUp the local entry at index `i` of a local
sequence of length L gets global position L - i and the remote entry at index
`j` of a remote sequence of length R gets position L + (R - j); selecting
exactly that position resolves exactly that entry; so for local = [A, B] and
remote = [X, Y, Z] the positions 1, 2, 3, 4, 5 denote B, A, Z, Y, X. -/
theorem bottomUp_numbering (pq : repoQuery) (aq : aurQuery) (arguments : Arguments) :
    (∀ (i : Nat) (h : i < pq.length),
      position .BottomUp pq.length aq.length (.repo i) = .ok ((pq.length : Int) - (i : Int)) ∧
      resolveTargets .BottomUp pq aq
          [⟨(pq.length : Int) - (i : Int), (pq.length : Int) - (i : Int)⟩] [] [] arguments =
        .ok (arguments.AddTarget (repoName pq[i]))) ∧
    (∀ (j : Nat) (h : j < aq.length),
      position .BottomUp pq.length aq.length (.aur j) =
        .ok ((pq.length : Int) + ((aq.length : Int) - (j : Int))) ∧
      resolveTargets .BottomUp pq aq
          [⟨(pq.length : Int) + ((aq.length : Int) - (j : Int)),
            (pq.length : Int) + ((aq.length : Int) - (j : Int))⟩] [] [] arguments =
        .ok (arguments.AddTarget (aurName aq[j]))) ∧
    (∀ (a b : RepoPkg) (x y z : AurPkg),
      [1, 2, 3, 4, 5].map (fun p =>
        resolveTargets .BottomUp [a, b] [x, y, z] [⟨p, p⟩] [] [] arguments) =
      [.ok (arguments.AddTarget (repoName b)), .ok (arguments.AddTarget (repoName a)),
        .ok (arguments.AddTarget (aurName z)), .ok (arguments.AddTarget (aurName y)),
        .ok (arguments.AddTarget (aurName x))]) := by
  have hm : SortMode.known .BottomUp := Or.inr rfl
  refine ⟨?_, ?_, ?_⟩
  · intro i h
    exact ⟨rfl, select_one .BottomUp hm pq aq (.repo i) _ _ arguments
      (repo_mem_listing pq aq i h) rfl⟩
  · intro j h
    have hp : position .BottomUp pq.length aq.length (.aur j) =
        .ok ((pq.length : Int) + ((aq.length : Int) - (j : Int))) := by
      simp only [position, aurTarget, Except.ok.injEq]; omega
    exact ⟨hp, select_one .BottomUp hm pq aq (.aur j) _ _ arguments
      (aur_mem_listing pq aq j h) hp⟩
  · intro a b x y z
    have e1 := select_one .BottomUp hm [a, b] [x, y, z] (.repo 1) (repoName b) 1 arguments
      (repo_mem_listing [a, b] [x, y, z] 1 (by simp)) rfl
    have e2 := select_one .BottomUp hm [a, b] [x, y, z] (.repo 0) (repoName a) 2 arguments
      (repo_mem_listing [a, b] [x, y, z] 0 (by simp)) rfl
    have e3 := select_one .BottomUp hm [a, b] [x, y, z] (.aur 2) (aurName z) 3 arguments
      (aur_mem_listing [a, b] [x, y, z] 2 (by simp)) rfl
    have e4 := select_one .BottomUp hm [a, b] [x, y, z] (.aur 1) (aurName y) 4 arguments
      (aur_mem_listing [a, b] [x, y, z] 1 (by simp)) rfl
    have e5 := select_one .BottomUp hm [a, b] [x, y, z] (.aur 0) (aurName x) 5 arguments
      (aur_mem_listing [a, b] [x, y, z] 0 (by simp)) rfl
    simp only [List.map_cons, List.map_nil, e1, e2, e3, e4, e5]

theorem bottomUp_numbering_witness :
    (1 : Nat) < ([⟨"core", "A"⟩, ⟨"core", "B"⟩] : repoQuery).length ∧
    resolveTargets .BottomUp [⟨"core", "A"⟩, ⟨"core", "B"⟩] [⟨"X"⟩, ⟨"Y"⟩, ⟨"Z"⟩]
      [⟨1, 1⟩] [] [] ⟨"", [], []⟩ = .ok ⟨"", [], ["core/B"]⟩ ∧
    (2 : Nat) < ([⟨"X"⟩, ⟨"Y"⟩, ⟨"Z"⟩] : aurQuery).length ∧
    resolveTargets .BottomUp [⟨"core", "A"⟩, ⟨"core", "B"⟩] [⟨"X"⟩, ⟨"Y"⟩, ⟨"Z"⟩]
      [⟨3, 3⟩] [] [] ⟨"", [], []⟩ = .ok ⟨"", [], ["aur/Z"]⟩ :=
  ⟨by decide,
    ((bottomUp_numbering [⟨"core", "A"⟩, ⟨"core", "B"⟩] [⟨"X"⟩, ⟨"Y"⟩, ⟨"Z"⟩]
      ⟨"", [], []⟩).1 1 (by decide)).2,
    by decide,
    ((bottomUp_numbering [⟨"core", "A"⟩, ⟨"core", "B"⟩] [⟨"X"⟩, ⟨"Y"⟩, ⟨"Z"⟩]
      ⟨"", [], []⟩).2.1 2 (by decide)).2⟩

/-- C4: under TopDown the local entry at index `i` gets global position
i + 1 and the remote entry at index `j` gets position len(local) + j + 1;
selecting exactly that position resolves exactly that entry; so for
local = [A, B] and remote = [X, Y, Z] the positions 1, 2, 3, 4, 5 denote
A, B, X, Y, Z. -/
theorem topDown_numbering (pq : repoQuery) (aq : aurQuery) (arguments : Arguments) :
    (∀ (i : Nat) (h : i < pq.length),
      position .TopDown pq.length aq.length (.repo i) = .ok ((i : Int) + 1) ∧
      resolveTargets .TopDown pq aq [⟨(i : Int) + 1, (i : Int) + 1⟩] [] [] arguments =
        .ok (arguments.AddTarget (repoName pq[i]))) ∧
    (∀ (j : Nat) (h : j < aq.length),
      position .TopDown pq.length aq.length (.aur j) =
        .ok ((pq.length : Int) + (j : Int) + 1) ∧
      resolveTargets .TopDown pq aq
          [⟨(pq.length : Int) + (j : Int) + 1, (pq.length : Int) + (j : Int) + 1⟩] [] []
          arguments =
        .ok (arguments.AddTarget (aurName aq[j]))) ∧
    (∀ (a b : RepoPkg) (x y z : AurPkg),
      [1, 2, 3, 4, 5].map (fun p =>
        resolveTargets .TopDown [a, b] [x, y, z] [⟨p, p⟩] [] [] arguments) =
      [.ok (arguments.AddTarget (repoName a)), .ok (arguments.AddTarget (repoName b)),
        .ok (arguments.AddTarget (aurName x)), .ok (arguments.AddTarget (aurName y)),
        .ok (arguments.AddTarget (aurName z))]) := by
  have hm : SortMode.known .TopDown := Or.inl rfl
  refine ⟨?_, ?_, ?_⟩
  · intro i h
    exact ⟨rfl, select_one .TopDown hm pq aq (.repo i) _ _ arguments
      (repo_mem_listing pq aq i h) rfl⟩
  · intro j h
    have hp : position .TopDown pq.length aq.length (.aur j) =
        .ok ((pq.length : Int) + (j : Int) + 1) := by
      simp only [position, aurTarget, Except.ok.injEq]; omega
    exact ⟨hp, select_one .TopDown hm pq aq (.aur j) _ _ arguments
      (aur_mem_listing pq aq j h) hp⟩
  · intro a b x y z
    have e1 := select_one .TopDown hm [a, b] [x, y, z] (.repo 0) (repoName a) 1 arguments
      (repo_mem_listing [a, b] [x, y, z] 0 (by simp)) rfl
    have e2 := select_one .TopDown hm [a, b] [x, y, z] (.repo 1) (repoName b) 2 arguments
      (repo_mem_listing [a, b] [x, y, z] 1 (by simp)) rfl
    have e3 := select_one .TopDown hm [a, b] [x, y, z] (.aur 0) (aurName x) 3 arguments
      (aur_mem_listing [a, b] [x, y, z] 0 (by simp)) rfl
    have e4 := select_one .TopDown hm [a, b] [x, y, z] (.aur 1) (aurName y) 4 arguments
      (aur_mem_listing [a, b] [x, y, z] 1 (by simp)) rfl
    have e5 := select_one .TopDown hm [a, b] [x, y, z] (.aur 2) (aurName z) 5 arguments
      (aur_mem_listing [a, b] [x, y, z] 2 (by simp)) rfl
    simp only [List.map_cons, List.map_nil, e1, e2, e3, e4, e5]

theorem topDown_numbering_witness :
    (1 : Nat) < ([⟨"core", "A"⟩, ⟨"core", "B"⟩] : repoQuery).length ∧
    resolveTargets .TopDown [⟨"core", "A"⟩, ⟨"core", "B"⟩] [⟨"X"⟩, ⟨"Y"⟩, ⟨"Z"⟩]
      [⟨2, 2⟩] [] [] ⟨"", [], []⟩ = .ok ⟨"", [], ["core/B"]⟩ ∧
    (2 : Nat) < ([⟨"X"⟩, ⟨"Y"⟩, ⟨"Z"⟩] : aurQuery).length ∧
    resolveTargets .TopDown [⟨"core", "A"⟩, ⟨"core", "B"⟩] [⟨"X"⟩, ⟨"Y"⟩, ⟨"Z"⟩]
      [⟨5, 5⟩] [] [] ⟨"", [], []⟩ = .ok ⟨"", [], ["aur/Z"]⟩ :=
  ⟨by decide,
    ((topDown_numbering [⟨"core", "A"⟩, ⟨"core", "B"⟩] [⟨"X"⟩, ⟨"Y"⟩, ⟨"Z"⟩]
      ⟨"", [], []⟩).1 1 (by decide)).2,
    by decide,
    ((topDown_numbering [⟨"core", "A"⟩, ⟨"core", "B"⟩] [⟨"X"⟩, ⟨"Y"⟩, ⟨"Z"⟩]
      ⟨"", [], []⟩).2.1 2 (by decide)).2⟩

/-- C5: for TopDown and for BottomUp and all lengths L and R, the position
assignment is a bijection between the entries (local `i` below L, remote `j`
below R) and the global positions 1..L+R: every entry gets a position in that
range, every position in that range is the position of exactly one entry, the
entry a position denotes is mapped back to that position, and the position of
an entry denotes that entry. -/
theorem numbering_bijection (sortMode : SortMode) (hm : sortMode.known) (lenpq lenaq : Nat) :
    (∀ e : Entry, e.valid lenpq lenaq →
      ∃ p : Int, position sortMode lenpq lenaq e = .ok p ∧ 1 ≤ p ∧
        p ≤ (lenpq : Int) + (lenaq : Int)) ∧
    (∀ p : Int, 1 ≤ p → p ≤ (lenpq : Int) + (lenaq : Int) →
      ∃ e : Entry, e.valid lenpq lenaq ∧ position sortMode lenpq lenaq e = .ok p ∧
        (∀ e' : Entry, e'.valid lenpq lenaq → position sortMode lenpq lenaq e' = .ok p →
          e' = e) ∧
        entryAt sortMode lenpq lenaq p = some e) ∧
    (∀ (e : Entry) (p : Int), e.valid lenpq lenaq →
      position sortMode lenpq lenaq e = .ok p → entryAt sortMode lenpq lenaq p = some e) := by
  refine ⟨fun e he => position_range sortMode hm lenpq lenaq e he, ?_, ?_⟩
  · intro p h1 h2
    obtain ⟨e, he, hp⟩ := position_surjective sortMode hm lenpq lenaq p h1 h2
    exact ⟨e, he, hp,
      fun e' he' hp' => position_injective sortMode lenpq lenaq e e' p he he' hp hp',
      entryAt_position sortMode lenpq lenaq e p he hp⟩
  · intro e p he hp
    exact entryAt_position sortMode lenpq lenaq e p he hp

theorem numbering_bijection_witness :
    SortMode.known .BottomUp ∧
    (∃ e : Entry, e.valid 2 3 ∧ position .BottomUp 2 3 e = .ok 4 ∧
      (∀ e' : Entry, e'.valid 2 3 → position .BottomUp 2 3 e' = .ok 4 → e' = e) ∧
      entryAt .BottomUp 2 3 4 = some e) ∧
    entryAt .BottomUp 2 3 4 = some (.aur 1) :=
  ⟨Or.inr rfl,
    (numbering_bijection .BottomUp (Or.inr rfl) 2 3).2.1 4 (by decide) (by decide),
    (numbering_bijection .BottomUp (Or.inr rfl) 2 3).2.2 (.aur 1) 4 (by decide) rfl⟩

theorem targets_sublist (sortMode : SortMode) (hm : sortMode.known)
    (pq : repoQuery) (aq : aurQuery) (incl exclude : IntRanges) (otherExclude : StringSet)
    (cmdArgs : Arguments) :
    ∃ arguments : Arguments,
      resolveTargets sortMode pq aq incl exclude otherExclude cmdArgs.CopyGlobal =
        .ok arguments ∧
      arguments.Targets.Sublist (pq.map repoName ++ aq.map aurName) ∧
      ((pq.map repoName ++ aq.map aurName).Nodup → arguments.Targets.Nodup) := by
  refine ⟨_, resolveTargets_ok sortMode hm pq aq incl exclude otherExclude _, ?_⟩
  have hsub : (cmdArgs.CopyGlobal.Targets ++
      ((listing pq aq).filter (fun x => chosen sortMode pq.length aq.length
        (exclude.length == 0 && otherExclude.length == 0) incl exclude x.1)).map
          (fun x => x.2)).Sublist (pq.map repoName ++ aq.map aurName) := by
    rw [← listing_snd]
    simp only [Arguments.CopyGlobal, List.nil_append]
    exact List.Sublist.map _ (List.filter_sublist _)
  exact ⟨hsub, fun hd => hd.sublist hsub⟩

/-! ## Repeated targets -/

/-- C6, as the claim states it, fails: a local database called `aur` holding
`foo` and the remote entry `foo` are both listed; selecting both entries makes
`displayNumberMenu` call `install` with the target `aur/foo` twice. -/
theorem duplicate_target_counterexample :
    displayNumberMenu (exampleSession .TopDown [⟨"aur", "foo"⟩] [⟨"foo"⟩] none [⟨1, 2⟩] [] [])
        ["foo"] =
      { events := [Event.printRepoSearch [⟨"aur", "foo"⟩], Event.printAurSearch [⟨"foo"⟩] 2,
          Event.Infoln packagesToInstall, Event.ReadLine,
          Event.install ⟨"", [], ["aur/foo", "aur/foo"]⟩],
        result := none } ∧
    ¬ (["aur/foo", "aur/foo"] : List String).Nodup := by
  constructor
  · rfl
  · decide

/-- C6, amended: under TopDown or BottomUp the install targets built from the
copy of the global arguments are exactly the target strings of the selected
entries, one string per selected entry, in listing order: a string occurs in
them as many times as there are selected entries carrying it, so a
`source_id/name` carried by several selected entries is added once per entry,
and no string occurs more than once whenever the fully qualified names of the
listed entries are pairwise distinct. -/
theorem targets_one_per_selected_entry (sortMode : SortMode) (hm : sortMode.known)
    (pq : repoQuery) (aq : aurQuery) (incl exclude : IntRanges) (otherExclude : StringSet)
    (cmdArgs : Arguments) :
    ∃ arguments : Arguments,
      resolveTargets sortMode pq aq incl exclude otherExclude cmdArgs.CopyGlobal =
        .ok arguments ∧
      arguments.Targets =
        (selectedEntries sortMode pq aq incl exclude otherExclude).map (fun x => x.2) ∧
      arguments.Targets.length =
        (selectedEntries sortMode pq aq incl exclude otherExclude).length ∧
      (∀ t : String, arguments.Targets.count t =
        ((selectedEntries sortMode pq aq incl exclude otherExclude).filter
          (fun x => x.2 == t)).length) ∧
      ((pq.map repoName ++ aq.map aurName).Nodup → arguments.Targets.Nodup) := by
  refine ⟨_, resolveTargets_ok sortMode hm pq aq incl exclude otherExclude _, ?_, ?_, ?_, ?_⟩
  · simp [Arguments.CopyGlobal, selectedEntries]
  · simp [Arguments.CopyGlobal, selectedEntries]
  · intro t
    simp only [Arguments.CopyGlobal, List.nil_append, selectedEntries]
    rw [List.count_eq_countP, List.countP_map, List.countP_eq_length_filter]
    rfl
  · intro hd
    have hsub : ((selectedEntries sortMode pq aq incl exclude otherExclude).map
        (fun x => x.2)).Sublist (pq.map repoName ++ aq.map aurName) := by
      rw [← listing_snd]
      exact List.Sublist.map _ (List.filter_sublist _)
    simpa [Arguments.CopyGlobal, selectedEntries] using hd.sublist hsub

theorem targets_one_per_selected_entry_witness :
    SortMode.known .TopDown ∧
    (∃ arguments : Arguments,
      resolveTargets .TopDown [⟨"aur", "foo"⟩, ⟨"core", "bar"⟩] [⟨"foo"⟩] [⟨1, 1⟩, ⟨3, 3⟩] [] []
        (Arguments.CopyGlobal ⟨"Y", [], ["foo"]⟩) = .ok arguments ∧
      arguments.Targets = ["aur/foo", "aur/foo"] ∧
      arguments.Targets.count "aur/foo" = 2) ∧
    (∃ arguments : Arguments,
      resolveTargets .TopDown [⟨"extra", "foo"⟩, ⟨"core", "bar"⟩] [⟨"foo"⟩] [⟨1, 1⟩, ⟨3, 3⟩] []
        [] (Arguments.CopyGlobal ⟨"Y", [], ["foo"]⟩) = .ok arguments ∧
      arguments.Targets = ["extra/foo", "aur/foo"] ∧
      arguments.Targets.Nodup) :=
  ⟨Or.inl rfl,
    (targets_one_per_selected_entry .TopDown (Or.inl rfl) [⟨"aur", "foo"⟩, ⟨"core", "bar"⟩]
      [⟨"foo"⟩] [⟨1, 1⟩, ⟨3, 3⟩] [] [] ⟨"Y", [], ["foo"]⟩).elim
      (fun arguments h => ⟨arguments, h.1, h.2.1.trans rfl,
        (h.2.2.2.1 "aur/foo").trans rfl⟩),
    (targets_one_per_selected_entry .TopDown (Or.inl rfl) [⟨"extra", "foo"⟩, ⟨"core", "bar"⟩]
      [⟨"foo"⟩] [⟨1, 1⟩, ⟨3, 3⟩] [] [] ⟨"Y", [], ["foo"]⟩).elim
      (fun arguments h => ⟨arguments, h.1, h.2.1.trans rfl, h.2.2.2.2 (by decide)⟩)⟩

/-! ## The whole session -/

theorem printListing_known (mode : TargetMode) (sortMode : SortMode) (hm : sortMode.known)
    (pq : repoQuery) (aq : aurQuery) (lenpq : Nat) :
    ∃ shown, printListing mode sortMode pq aq lenpq = .ok shown := by
  rcases hm with rfl | rfl <;> exact ⟨_, rfl⟩

theorem printListing_events (mode : TargetMode) (sortMode : SortMode) (pq : repoQuery)
    (aq : aurQuery) (lenpq : Nat) (shown : List Event)
    (h : printListing mode sortMode pq aq lenpq = .ok shown) :
    ∀ ev ∈ shown, ev = Event.printRepoSearch pq ∨
      ev = Event.printAurSearch aq ((lenpq : Int) + 1) := by
  intro ev hev
  cases sortMode with
  | TopDown =>
    simp only [printListing, Except.ok.injEq] at h
    subst h
    cases h1 : mode.wantsRepo <;> cases h2 : mode.wantsAUR <;> simp [h1, h2] at hev <;> tauto
  | BottomUp =>
    simp only [printListing, Except.ok.injEq] at h
    subst h
    cases h1 : mode.wantsRepo <;> cases h2 : mode.wantsAUR <;> simp [h1, h2] at hev <;> tauto
  | other n => simp [printListing] at h

theorem displayNumberMenu_listed (s : Session) (pkgS : List String) (aq : aurQuery)
    (aurErr : Option GoError) (pq : repoQuery) (shown : List Event)
    (haur : aurResults s (s.removeInvalidTargets pkgS) = (aq, aurErr))
    (hrepo : repoResults s (s.removeInvalidTargets pkgS) = (pq, none))
    (hne : ¬ (pq.length = 0 ∧ aq.length = 0))
    (hshown : printListing s.Mode s.SortMode pq aq pq.length = .ok shown) :
    displayNumberMenu s pkgS =
      { events := shown ++ (selectAndInstall s pq aq aurErr).events,
        result := (selectAndInstall s pq aq aurErr).result } := by
  unfold displayNumberMenu
  simp only [haur, hrepo, hshown]
  have h : (pq.length == 0 && aq.length == 0) = false := by
    cases hb : (pq.length == 0 && aq.length == 0) with
    | false => rfl
    | true =>
      simp only [Bool.and_eq_true, beq_iff_eq] at hb
      exact absurd hb hne
  simp [h]

/-- The events of lines 345-355 before the selection is resolved. -/
theorem selectAndInstall_read (s : Session) (pq : repoQuery) (aq : aurQuery)
    (aurErr : Option GoError) (numberBuf : String) (incl exclude : IntRanges)
    (otherInclude otherExclude : StringSet) (arguments : Arguments)
    (hread : s.ReadLine = (numberBuf, false, none))
    (hparse : s.ParseNumberMenu numberBuf = (incl, exclude, otherInclude, otherExclude))
    (hres : resolveTargets s.SortMode pq aq incl exclude otherExclude s.cmdArgs.CopyGlobal =
      .ok arguments) :
    selectAndInstall s pq aq aurErr =
      { events := aurWarning aurErr ++ [Event.Infoln packagesToInstall, Event.ReadLine] ++
            (finish s arguments).events,
        result := (finish s arguments).result } := by
  unfold selectAndInstall
  simp only [hread, hparse, hres]

theorem finish_install (s : Session) (arguments a : Arguments)
    (h : Event.install a ∈ (finish s arguments).events) : a.Targets ≠ [] := by
  unfold finish at h
  split at h
  · simp at h
  · rename_i hlen
    cases hs : s.SudoLoop <;> simp [hs] at h <;> subst h <;>
      intro h0 <;> simp [h0] at hlen

theorem selectAndInstall_install (s : Session) (pq : repoQuery) (aq : aurQuery)
    (aurErr : Option GoError) (a : Arguments)
    (h : Event.install a ∈ (selectAndInstall s pq aq aurErr).events) : a.Targets ≠ [] := by
  rcases hr : s.ReadLine with ⟨numberBuf, overflow, err⟩
  cases err with
  | some err => cases aurErr <;> simp [selectAndInstall, aurWarning, hr] at h
  | none =>
    cases overflow with
    | true => cases aurErr <;> simp [selectAndInstall, aurWarning, hr] at h
    | false =>
      rcases hp : s.ParseNumberMenu numberBuf with ⟨incl, exclude, otherInclude, otherExclude⟩
      cases hres : resolveTargets s.SortMode pq aq incl exclude otherExclude
          s.cmdArgs.CopyGlobal with
      | error e => cases aurErr <;> simp [selectAndInstall, aurWarning, hr, hp, hres] at h
      | ok arguments =>
        rw [selectAndInstall_read s pq aq aurErr numberBuf incl exclude otherInclude
          otherExclude arguments hr hp hres] at h
        have h2 : Event.install a ∈ (finish s arguments).events := by
          cases aurErr <;> simpa [aurWarning] using h
        exact finish_install s arguments a h2

theorem displayNumberMenu_cases (s : Session) (pkgS : List String) :
    (∃ e, displayNumberMenu s pkgS = { events := [], result := some e }) ∨
    (∃ (aq : aurQuery) (aurErr : Option GoError) (pq : repoQuery) (shown : List Event),
      printListing s.Mode s.SortMode pq aq pq.length = .ok shown ∧
      displayNumberMenu s pkgS =
        { events := shown ++ (selectAndInstall s pq aq aurErr).events,
          result := (selectAndInstall s pq aq aurErr).result }) := by
  rcases haur : aurResults s (s.removeInvalidTargets pkgS) with ⟨aq, aurErr⟩
  rcases hrepo : repoResults s (s.removeInvalidTargets pkgS) with ⟨pq, repoErr⟩
  cases repoErr with
  | some e => exact Or.inl ⟨e, by simp [displayNumberMenu, haur, hrepo]⟩
  | none =>
    by_cases hne : pq.length = 0 ∧ aq.length = 0
    · exact Or.inl ⟨noPackagesMatch, by simp [displayNumberMenu, haur, hrepo, hne.1, hne.2]⟩
    · cases hshown : printListing s.Mode s.SortMode pq aq pq.length with
      | error e =>
        refine Or.inl ⟨e, ?_⟩
        unfold displayNumberMenu
        simp only [haur, hrepo, hshown]
        split
        · rename_i hb
          simp only [Bool.and_eq_true, beq_iff_eq] at hb
          exact absurd hb hne
        · rfl
      | ok shown =>
        exact Or.inr ⟨aq, aurErr, pq, shown, hshown,
          displayNumberMenu_listed s pkgS aq aurErr pq shown haur hrepo hne hshown⟩

theorem displayNumberMenu_install (s : Session) (pkgS : List String) (a : Arguments)
    (h : Event.install a ∈ (displayNumberMenu s pkgS).events) : a.Targets ≠ [] := by
  rcases displayNumberMenu_cases s pkgS with ⟨e, he⟩ | ⟨aq, aurErr, pq, shown, hshown, he⟩
  · simp [he] at h
  · rw [he] at h
    rcases List.mem_append.1 h with h1 | h2
    · rcases printListing_events _ _ _ _ _ _ hshown _ h1 with h3 | h3 <;> cases h3
    · exact selectAndInstall_install s pq aq aurErr a h2

theorem resolveTargets_empty (sortMode : SortMode) (hm : sortMode.known) (pq : repoQuery)
    (aq : aurQuery) (arguments : Arguments) :
    resolveTargets sortMode pq aq [] [] [] arguments = .ok arguments := by
  rw [resolveTargets_ok sortMode hm]
  have h0 : (([] : IntRanges).length == 0 && ([] : StringSet).length == 0) = true := rfl
  have hnil : (listing pq aq).filter (fun x => chosen sortMode pq.length aq.length
      (([] : IntRanges).length == 0 && ([] : StringSet).length == 0) [] [] x.1) = [] := by
    rw [h0, chosen_include, List.filter_eq_nil_iff]
    intro x _
    unfold positionIn
    split <;> simp [IntRanges.Get]
  rw [hnil]
  simp

theorem finish_empty (s : Session) (arguments : Arguments) (h : arguments.Targets = []) :
    finish s arguments = { events := [Event.Println nothingToDo], result := none } := by
  simp [finish, h]

/-- C7: under TopDown or BottomUp and on a non-empty listing, the empty
selection (include, exclude and other-exclude all empty) resolves to an empty
target list; whenever the resolved target list is empty the session ends by
printing that there is nothing to do and returns `nil`, with no call of
`install`; and any call of `install` carries a non-empty target list. -/
theorem empty_selection_nothing_to_do (s : Session) (pkgS : List String) :
    (∀ (pq : repoQuery) (aq : aurQuery) (aurErr : Option GoError) (numberBuf : String)
        (otherInclude : StringSet),
      s.SortMode.known →
      aurResults s (s.removeInvalidTargets pkgS) = (aq, aurErr) →
      repoResults s (s.removeInvalidTargets pkgS) = (pq, none) →
      ¬ (pq.length = 0 ∧ aq.length = 0) →
      s.ReadLine = (numberBuf, false, none) →
      s.ParseNumberMenu numberBuf = ([], [], otherInclude, []) →
      ∃ (arguments : Arguments) (shown : List Event),
        resolveTargets s.SortMode pq aq [] [] [] s.cmdArgs.CopyGlobal = .ok arguments ∧
        arguments.Targets = [] ∧
        printListing s.Mode s.SortMode pq aq pq.length = .ok shown ∧
        displayNumberMenu s pkgS =
          { events := shown ++ (aurWarning aurErr ++
              [Event.Infoln packagesToInstall, Event.ReadLine, Event.Println nothingToDo]),
            result := none }) ∧
    (∀ (pq : repoQuery) (aq : aurQuery) (aurErr : Option GoError) (numberBuf : String)
        (incl exclude : IntRanges) (otherInclude otherExclude : StringSet)
        (arguments : Arguments) (shown : List Event),
      aurResults s (s.removeInvalidTargets pkgS) = (aq, aurErr) →
      repoResults s (s.removeInvalidTargets pkgS) = (pq, none) →
      ¬ (pq.length = 0 ∧ aq.length = 0) →
      printListing s.Mode s.SortMode pq aq pq.length = .ok shown →
      s.ReadLine = (numberBuf, false, none) →
      s.ParseNumberMenu numberBuf = (incl, exclude, otherInclude, otherExclude) →
      resolveTargets s.SortMode pq aq incl exclude otherExclude s.cmdArgs.CopyGlobal =
        .ok arguments →
      arguments.Targets = [] →
      displayNumberMenu s pkgS =
        { events := shown ++ (aurWarning aurErr ++
            [Event.Infoln packagesToInstall, Event.ReadLine, Event.Println nothingToDo]),
          result := none }) ∧
    (∀ arguments : Arguments, arguments.Targets = [] →
      finish s arguments = { events := [Event.Println nothingToDo], result := none }) ∧
    (∀ a : Arguments, Event.install a ∈ (displayNumberMenu s pkgS).events →
      a.Targets ≠ []) := by
  have hgen : ∀ (pq : repoQuery) (aq : aurQuery) (aurErr : Option GoError)
      (numberBuf : String) (incl exclude : IntRanges) (otherInclude otherExclude : StringSet)
      (arguments : Arguments) (shown : List Event),
      aurResults s (s.removeInvalidTargets pkgS) = (aq, aurErr) →
      repoResults s (s.removeInvalidTargets pkgS) = (pq, none) →
      ¬ (pq.length = 0 ∧ aq.length = 0) →
      printListing s.Mode s.SortMode pq aq pq.length = .ok shown →
      s.ReadLine = (numberBuf, false, none) →
      s.ParseNumberMenu numberBuf = (incl, exclude, otherInclude, otherExclude) →
      resolveTargets s.SortMode pq aq incl exclude otherExclude s.cmdArgs.CopyGlobal =
        .ok arguments →
      arguments.Targets = [] →
      displayNumberMenu s pkgS =
        { events := shown ++ (aurWarning aurErr ++
            [Event.Infoln packagesToInstall, Event.ReadLine, Event.Println nothingToDo]),
          result := none } := by
    intro pq aq aurErr numberBuf incl exclude otherInclude otherExclude arguments shown
      haur hrepo hne hshown hread hparse hres hnil
    rw [displayNumberMenu_listed s pkgS aq aurErr pq shown haur hrepo hne hshown,
      selectAndInstall_read s pq aq aurErr numberBuf incl exclude otherInclude otherExclude
        arguments hread hparse hres, finish_empty s arguments hnil]
    simp
  refine ⟨?_, hgen, finish_empty s, displayNumberMenu_install s pkgS⟩
  intro pq aq aurErr numberBuf otherInclude hm haur hrepo hne hread hparse
  obtain ⟨shown, hshown⟩ := printListing_known s.Mode s.SortMode hm pq aq pq.length
  have hres := resolveTargets_empty s.SortMode hm pq aq s.cmdArgs.CopyGlobal
  exact ⟨s.cmdArgs.CopyGlobal, shown, hres, rfl, hshown,
    hgen pq aq aurErr numberBuf [] [] otherInclude [] s.cmdArgs.CopyGlobal shown haur hrepo hne
      hshown hread hparse hres rfl⟩

theorem empty_selection_nothing_to_do_witness :
    SortMode.known .BottomUp ∧
    displayNumberMenu (exampleSession .BottomUp [⟨"core", "A"⟩] [⟨"X"⟩] none [] [] [])
        ["foo"] =
      { events := [Event.printAurSearch [⟨"X"⟩] 2, Event.printRepoSearch [⟨"core", "A"⟩],
          Event.Infoln packagesToInstall, Event.ReadLine, Event.Println nothingToDo],
        result := none } ∧
    (∀ a : Arguments, Event.install a ∈ (displayNumberMenu
      (exampleSession .BottomUp [⟨"core", "A"⟩] [⟨"X"⟩] none [] [] []) ["foo"]).events →
      a.Targets ≠ []) :=
  ⟨Or.inr rfl,
    (empty_selection_nothing_to_do
      (exampleSession .BottomUp [⟨"core", "A"⟩] [⟨"X"⟩] none [] [] []) ["foo"]).2.1
      [⟨"core", "A"⟩] [⟨"X"⟩] none "1" [] [] [] []
      (Arguments.CopyGlobal ⟨"Y", [], ["foo"]⟩)
      [Event.printAurSearch [⟨"X"⟩] 2, Event.printRepoSearch [⟨"core", "A"⟩]]
      rfl rfl (by decide) rfl rfl rfl rfl rfl,
    (empty_selection_nothing_to_do
      (exampleSession .BottomUp [⟨"core", "A"⟩] [⟨"X"⟩] none [] [] []) ["foo"]).2.2.2⟩

/-- C8: for every configured sort mode other than TopDown and BottomUp, and
for all targets, source modes, query results and operator input,
`displayNumberMenu` returns an error, before the operator's selection is read
and without a call of `install`; once the queries have given a non-empty
listing that error is the invalid-sort-mode error. -/
theorem unknown_sort_mode_is_an_error (s : Session) (pkgS : List String)
    (hm : ¬ s.SortMode.known) :
    (∃ e, (displayNumberMenu s pkgS).result = some e) ∧
    Event.ReadLine ∉ (displayNumberMenu s pkgS).events ∧
    (∀ a : Arguments, Event.install a ∉ (displayNumberMenu s pkgS).events) ∧
    (∀ (pq : repoQuery) (aq : aurQuery) (aurErr : Option GoError),
      aurResults s (s.removeInvalidTargets pkgS) = (aq, aurErr) →
      repoResults s (s.removeInvalidTargets pkgS) = (pq, none) →
      ¬ (pq.length = 0 ∧ aq.length = 0) →
      displayNumberMenu s pkgS = { events := [], result := some invalidSortMode }) := by
  have hlist : ∀ (pq : repoQuery) (aq : aurQuery) (lenpq : Nat),
      printListing s.Mode s.SortMode pq aq lenpq = .error invalidSortMode := by
    intro pq aq lenpq
    cases hs : s.SortMode with
    | TopDown => exact absurd (Or.inl hs) hm
    | BottomUp => exact absurd (Or.inr hs) hm
    | other n => rfl
  have hrun : ∃ e, displayNumberMenu s pkgS = { events := [], result := some e } := by
    rcases displayNumberMenu_cases s pkgS with h | ⟨aq, aurErr, pq, shown, hshown, _⟩
    · exact h
    · rw [hlist] at hshown; cases hshown
  obtain ⟨e, he⟩ := hrun
  refine ⟨⟨e, by rw [he]⟩, by simp [he], by simp [he], ?_⟩
  intro pq aq aurErr haur hrepo hne
  unfold displayNumberMenu
  simp only [haur, hrepo, hlist]
  split
  · rename_i hb
    simp only [Bool.and_eq_true, beq_iff_eq] at hb
    exact absurd hb hne
  · rfl

theorem unknown_sort_mode_is_an_error_witness :
    ¬ SortMode.known (.other 7) ∧
    displayNumberMenu
        (exampleSession (.other 7) [⟨"core", "A"⟩] [⟨"X"⟩] none [⟨1, 2⟩] [] []) ["foo"] =
      { events := [], result := some invalidSortMode } ∧
    (∃ e, (displayNumberMenu
      (exampleSession (.other 7) [⟨"core", "A"⟩] [⟨"X"⟩] none [⟨1, 2⟩] [] [])
        ["foo"]).result = some e) :=
  ⟨by decide,
    (unknown_sort_mode_is_an_error
      (exampleSession (.other 7) [⟨"core", "A"⟩] [⟨"X"⟩] none [⟨1, 2⟩] [] []) ["foo"]
      (by decide)).2.2.2 [⟨"core", "A"⟩] [⟨"X"⟩] none rfl rfl (by decide),
    (unknown_sort_mode_is_an_error
      (exampleSession (.other 7) [⟨"core", "A"⟩] [⟨"X"⟩] none [⟨1, 2⟩] [] []) ["foo"]
      (by decide)).1⟩

/-! ## The other-exclude set -/

/-- C9, as the claim states it, fails: with other-exclude holding both `aur`
and the local catalog name `core`, and nothing excluded by number, the local
entry `core/A` and the remote entry `aur/X` are both handed to `install`. -/
theorem other_exclude_counterexample :
    displayNumberMenu
        (exampleSession .TopDown [⟨"core", "A"⟩] [⟨"X"⟩] none [] [] ["aur", "core"])
        ["foo"] =
      { events := [Event.printRepoSearch [⟨"core", "A"⟩], Event.printAurSearch [⟨"X"⟩] 2,
          Event.Infoln packagesToInstall, Event.ReadLine,
          Event.install ⟨"", [], ["core/A", "aur/X"]⟩],
        result := none } := by
  rfl

/-- C9, amended: under TopDown or BottomUp, a non-empty other-exclude set only
puts the session in exclude mode; its strings are not compared with any entry:
the targets added are the target strings of exactly those entries whose global
position is not in the numeric exclude set, whatever other-exclude and the
include set hold. -/
theorem other_exclude_only_switches_mode (sortMode : SortMode) (hm : sortMode.known)
    (pq : repoQuery) (aq : aurQuery) (incl exclude : IntRanges) (otherExclude : StringSet)
    (arguments : Arguments) (hoe : otherExclude ≠ []) :
    resolveTargets sortMode pq aq incl exclude otherExclude arguments =
      .ok { arguments with Targets := (arguments.Targets ++
        ((listing pq aq).filter
          (fun x => !positionIn sortMode pq.length aq.length exclude x.1)).map
            (fun x => x.2)) } := by
  rw [resolveTargets_ok sortMode hm]
  have h : (exclude.length == 0 && otherExclude.length == 0) = false := by
    cases otherExclude with
    | nil => exact absurd rfl hoe
    | cons r rs => simp
  rw [h, chosen_exclude sortMode hm]

theorem other_exclude_only_switches_mode_witness :
    SortMode.known .BottomUp ∧ (["aur"] : StringSet) ≠ [] ∧
    resolveTargets .BottomUp [⟨"core", "A"⟩] [⟨"X"⟩, ⟨"Y"⟩] [] [⟨1, 2⟩] ["aur"] ⟨"", [], []⟩ =
      .ok ⟨"", [], ["aur/X"]⟩ :=
  ⟨Or.inr rfl, by simp,
    other_exclude_only_switches_mode .BottomUp (Or.inr rfl) [⟨"core", "A"⟩] [⟨"X"⟩, ⟨"Y"⟩] []
      [⟨1, 2⟩] ["aur"] ⟨"", [], []⟩ (by simp)⟩

/-! ## A failing remote query -/

/-- C10, as the claim states it, fails in two ways. With a local database
called `aur`, a failing remote query that returns no entry and the selection
`1`, the target handed to `install` is `aur/foo`. And the loops run over
whatever the remote query returned: were entries returned together with the
error, the selection `2` would hand the remote entry `aur/X` to `install`
after the local-only warning. -/
theorem aur_error_counterexample :
    displayNumberMenu
        (exampleSession .TopDown [⟨"aur", "foo"⟩] [] (some "timeout") [⟨1, 1⟩] [] [])
        ["foo"] =
      { events := [Event.printRepoSearch [⟨"aur", "foo"⟩], Event.printAurSearch [] 2,
          Event.Errorln "timeout", Event.Warnln repoOnly,
          Event.Infoln packagesToInstall, Event.ReadLine,
          Event.install ⟨"", [], ["aur/foo"]⟩],
        result := none } ∧
    displayNumberMenu
        (exampleSession .TopDown [⟨"core", "A"⟩] [⟨"X"⟩] (some "timeout") [⟨2, 2⟩] [] [])
        ["foo"] =
      { events := [Event.printRepoSearch [⟨"core", "A"⟩], Event.printAurSearch [⟨"X"⟩] 2,
          Event.Errorln "timeout", Event.Warnln repoOnly,
          Event.Infoln packagesToInstall, Event.ReadLine,
          Event.install ⟨"", [], ["aur/X"]⟩],
        result := none } := by
  constructor <;> rfl

/-- C10, amended: under TopDown or BottomUp, when the remote query returns an
error and no entries while the local query succeeds with at least one entry,
the remote error is not returned: the listing is shown, the error and the
local-only warning are printed, the selection is requested and read, and a
selection that is read resolves against the local sequence alone, every
install target being the `db/name` of a local entry; the result of the run is
then that of the final step (nothing to do, or `install`). -/
theorem aur_error_shows_repo_only (s : Session) (pkgS : List String) (pq : repoQuery)
    (err : GoError) (hm : s.SortMode.known)
    (haur : aurResults s (s.removeInvalidTargets pkgS) = ([], some err))
    (hrepo : repoResults s (s.removeInvalidTargets pkgS) = (pq, none))
    (hpq : pq ≠ []) :
    ∃ shown : List Event,
      printListing s.Mode s.SortMode pq [] pq.length = .ok shown ∧
      displayNumberMenu s pkgS =
        { events := shown ++ (selectAndInstall s pq [] (some err)).events,
          result := (selectAndInstall s pq [] (some err)).result } ∧
      [Event.Errorln err, Event.Warnln repoOnly, Event.Infoln packagesToInstall,
        Event.ReadLine] <+: (selectAndInstall s pq [] (some err)).events ∧
      (∀ (numberBuf : String) (incl exclude : IntRanges)
          (otherInclude otherExclude : StringSet),
        s.ReadLine = (numberBuf, false, none) →
        s.ParseNumberMenu numberBuf = (incl, exclude, otherInclude, otherExclude) →
        ∃ arguments : Arguments,
          resolveTargets s.SortMode pq [] incl exclude otherExclude s.cmdArgs.CopyGlobal =
            .ok arguments ∧
          arguments.Targets.Sublist (pq.map repoName) ∧
          displayNumberMenu s pkgS =
            { events := shown ++ ([Event.Errorln err, Event.Warnln repoOnly,
                Event.Infoln packagesToInstall, Event.ReadLine] ++
                (finish s arguments).events),
              result := (finish s arguments).result }) := by
  obtain ⟨shown, hshown⟩ := printListing_known s.Mode s.SortMode hm pq [] pq.length
  have hne : ¬ (pq.length = 0 ∧ ([] : aurQuery).length = 0) := by
    intro h
    exact hpq (List.length_eq_zero.1 h.1)
  have hrun := displayNumberMenu_listed s pkgS [] (some err) pq shown haur hrepo hne hshown
  refine ⟨shown, hshown, hrun, ?_, ?_⟩
  · rcases hr : s.ReadLine with ⟨numberBuf, overflow, rerr⟩
    cases rerr with
    | some rerr => simp [selectAndInstall, aurWarning, hr]
    | none =>
      cases overflow with
      | true => simp [selectAndInstall, aurWarning, hr]
      | false =>
        rcases hp : s.ParseNumberMenu numberBuf with ⟨incl, exclude, oi, oe⟩
        cases hres : resolveTargets s.SortMode pq [] incl exclude oe s.cmdArgs.CopyGlobal with
        | error e => simp [selectAndInstall, aurWarning, hr, hp, hres]
        | ok arguments =>
          rw [selectAndInstall_read s pq [] (some err) numberBuf incl exclude oi oe arguments
            hr hp hres]
          exact ⟨(finish s arguments).events, by simp [aurWarning]⟩
  · intro numberBuf incl exclude otherInclude otherExclude hread hparse
    obtain ⟨arguments, hres, hsub, _⟩ := targets_sublist s.SortMode hm pq [] incl exclude
      otherExclude s.cmdArgs
    refine ⟨arguments, hres, by simpa using hsub, ?_⟩
    rw [hrun, selectAndInstall_read s pq [] (some err) numberBuf incl exclude otherInclude
      otherExclude arguments hread hparse hres]
    simp [aurWarning]

theorem aur_error_shows_repo_only_witness :
    SortMode.known .BottomUp ∧ ([⟨"core", "A"⟩, ⟨"core", "B"⟩] : repoQuery) ≠ [] ∧
    (∃ shown : List Event,
      printListing .ModeAny .BottomUp [⟨"core", "A"⟩, ⟨"core", "B"⟩] [] 2 = .ok shown ∧
      [Event.Errorln "timeout", Event.Warnln repoOnly, Event.Infoln packagesToInstall,
        Event.ReadLine] <+: (selectAndInstall
          (exampleSession .BottomUp [⟨"core", "A"⟩, ⟨"core", "B"⟩] [] (some "timeout")
            [⟨1, 1⟩] [] []) [⟨"core", "A"⟩, ⟨"core", "B"⟩] [] (some "timeout")).events) ∧
    displayNumberMenu (exampleSession .BottomUp [⟨"core", "A"⟩, ⟨"core", "B"⟩] []
        (some "timeout") [⟨1, 1⟩] [] []) ["foo"] =
      { events := [Event.printAurSearch [] 3,
          Event.printRepoSearch [⟨"core", "A"⟩, ⟨"core", "B"⟩],
          Event.Errorln "timeout", Event.Warnln repoOnly,
          Event.Infoln packagesToInstall, Event.ReadLine,
          Event.install ⟨"", [], ["core/B"]⟩],
        result := none } :=
  ⟨Or.inr rfl, by simp,
    (aur_error_shows_repo_only
      (exampleSession .BottomUp [⟨"core", "A"⟩, ⟨"core", "B"⟩] [] (some "timeout") [⟨1, 1⟩]
        [] []) ["foo"] [⟨"core", "A"⟩, ⟨"core", "B"⟩] "timeout" (Or.inr rfl) rfl rfl
      (by simp)).elim (fun shown h => ⟨shown, h.1, h.2.2.1⟩),
    rfl⟩

/-! ## The command router -/

theorem handleCmd_sync (c : CmdState) (hhelp : c.ExistsArg ["h", "help"] = false)
    (hop : c.cmdArgs.Op = "S" ∨ c.cmdArgs.Op = "sync") :
    handleCmd c =
      { actions := (if c.SudoLoop && c.NeedRoot then [Action.sudoLoopBackground] else []) ++
          (handleSync c).actions,
        result := (handleSync c).result } := by
  rcases hop with h | h <;> simp [handleCmd, handleOp, hhelp, h]

/-- C11, as the claim states it, fails on each of its three kinds of state,
all without targets: with the help flag and operation `Y` the usage text is
printed and nothing is passed through; with operation `S` and the search flag
the search mode is set and `syncSearch` is called; with operation `S`, the
list flag and source mode `ModeAUR` the remote package list is fetched and
printed and nothing is passed through, and with source mode `ModeAny` it is
printed before the command is passed through. -/
theorem pass_through_counterexample :
    (exampleCmd "Y" ["h"] [] .ModeAny).cmdArgs.Targets = [] ∧
    (exampleCmd "Y" ["h"] [] .ModeAny).ExistsArg ["h", "help"] = true ∧
    handleCmd (exampleCmd "Y" ["h"] [] .ModeAny) =
      { actions := [Action.usage], result := none } ∧
    (exampleCmd "S" ["s"] [] .ModeAny).ExistsArg ["s", "search"] = true ∧
    handleCmd (exampleCmd "S" ["s"] [] .ModeAny) =
      { actions := [Action.setSearchMode .detailed, Action.syncSearch []], result := none } ∧
    (exampleCmd "S" ["l"] [] .ModeAUR).ExistsArg ["l", "list"] = true ∧
    handleCmd (exampleCmd "S" ["l"] [] .ModeAUR) =
      { actions := [Action.LocalDB, Action.httpGet "https://aur.archlinux.org/packages.gz",
          Action.Printf "foo", Action.Print, Action.Println "",
          Action.Printf "bar", Action.Println ""],
        result := none } ∧
    handleCmd (exampleCmd "S" ["l"] [] .ModeAny) =
      { actions := [Action.LocalDB, Action.httpGet "https://aur.archlinux.org/packages.gz",
          Action.Printf "foo", Action.Print, Action.Println "",
          Action.Printf "bar", Action.Println "",
          Action.passToPacman ⟨"S", [⟨"l", false⟩], []⟩],
        result := none } := by
  refine ⟨rfl, rfl, rfl, rfl, rfl, rfl, rfl, rfl⟩

/-- C11, amended: with the help flag set and an operation that is neither `Y`
nor `yay`, `handleCmd` passes the unchanged command to `passToPacman` and does
nothing else, whatever the targets and the source mode; with the help flag
and operation `Y` or `yay` it prints the usage text. With the help flag not
set and the operation sync, after the sudo loop is started when one is
configured and root is needed: with the search flag it sets the search mode
and calls `syncSearch` on the targets; with the list flag, none of the search,
print and clean flags, and no targets, in source mode `ModeRepo` it passes the
unchanged command through as its only action, and in `ModeAny` and `ModeAUR`
it first opens the local database and fetches the remote package list: if
opening the database fails it returns that error, if the fetch fails it
returns that error, in both cases printing nothing and passing nothing
through; if both succeed it prints the remote package list and then, in
`ModeAny`, passes the unchanged command through, while in `ModeAUR` it passes
nothing through and returns `nil`. -/
theorem help_and_list_pass_through (c : CmdState) :
    (c.ExistsArg ["h", "help"] = true → c.cmdArgs.Op ≠ "Y" → c.cmdArgs.Op ≠ "yay" →
      handleCmd c =
        { actions := [Action.passToPacman c.cmdArgs],
          result := c.ret (Action.passToPacman c.cmdArgs) }) ∧
    (c.ExistsArg ["h", "help"] = true → c.cmdArgs.Op = "Y" ∨ c.cmdArgs.Op = "yay" →
      handleCmd c = { actions := [Action.usage], result := none }) ∧
    (c.ExistsArg ["h", "help"] = false → c.cmdArgs.Op = "S" ∨ c.cmdArgs.Op = "sync" →
      c.ExistsArg ["s", "search"] = true →
      handleCmd c =
        { actions := (if c.SudoLoop && c.NeedRoot then [Action.sudoLoopBackground] else []) ++
            [Action.setSearchMode
              (if c.ExistsArg ["q", "quiet"] then SearchMode.minimal else SearchMode.detailed),
             Action.syncSearch c.cmdArgs.Targets],
          result := c.ret (Action.syncSearch c.cmdArgs.Targets) }) ∧
    (c.ExistsArg ["h", "help"] = false → c.cmdArgs.Op = "S" ∨ c.cmdArgs.Op = "sync" →
      c.ExistsArg ["s", "search"] = false → c.ExistsArg ["p", "print", "print-format"] = false →
      c.ExistsArg ["c", "clean"] = false → c.ExistsArg ["l", "list"] = true →
      c.cmdArgs.Targets = [] →
      (c.Mode = .ModeRepo →
        handleCmd c =
          { actions := (if c.SudoLoop && c.NeedRoot then [Action.sudoLoopBackground]
              else []) ++ [Action.passToPacman c.cmdArgs],
            result := c.ret (Action.passToPacman c.cmdArgs) }) ∧
      (∀ err : GoError, c.Mode = .ModeAny ∨ c.Mode = .ModeAUR → c.LocalDB = some err →
        handleCmd c =
          { actions := (if c.SudoLoop && c.NeedRoot then [Action.sudoLoopBackground]
              else []) ++ [Action.LocalDB],
            result := some err }) ∧
      (∀ err : GoError, c.Mode = .ModeAny ∨ c.Mode = .ModeAUR → c.LocalDB = none →
        c.httpGet (c.AURURL ++ "/packages.gz") = .error err →
        handleCmd c =
          { actions := (if c.SudoLoop && c.NeedRoot then [Action.sudoLoopBackground]
              else []) ++ [Action.LocalDB, Action.httpGet (c.AURURL ++ "/packages.gz")],
            result := some err }) ∧
      (∀ lines : List String, c.Mode = .ModeAny → c.LocalDB = none →
        c.httpGet (c.AURURL ++ "/packages.gz") = .ok lines →
        handleCmd c =
          { actions := (if c.SudoLoop && c.NeedRoot then [Action.sudoLoopBackground]
              else []) ++ ([Action.LocalDB, Action.httpGet (c.AURURL ++ "/packages.gz")] ++
                printAurList c (lines.drop 1) ++ [Action.passToPacman c.cmdArgs]),
            result := c.ret (Action.passToPacman c.cmdArgs) }) ∧
      (∀ lines : List String, c.Mode = .ModeAUR → c.LocalDB = none →
        c.httpGet (c.AURURL ++ "/packages.gz") = .ok lines →
        handleCmd c =
          { actions := (if c.SudoLoop && c.NeedRoot then [Action.sudoLoopBackground]
              else []) ++ ([Action.LocalDB, Action.httpGet (c.AURURL ++ "/packages.gz")] ++
                printAurList c (lines.drop 1)),
            result := none })) := by
  refine ⟨?_, ?_, ?_, ?_⟩
  · intro hhelp h1 h2
    simp [handleCmd, handleHelp, CmdState.call, hhelp, h1, h2]
  · intro hhelp hop
    rcases hop with h | h <;> simp [handleCmd, handleHelp, hhelp, h]
  · intro hhelp hop hsearch
    rw [handleCmd_sync c hhelp hop]
    simp [handleSync, hsearch]
  · intro hhelp hop hsearch hprint hclean hlist htargets
    rw [handleCmd_sync c hhelp hop]
    have hsync : handleSync c = syncList c c.cmdArgs := by
      simp [handleSync, hsearch, hprint, hclean, hlist]
    have hargs : ({ c.cmdArgs with Targets := [] } : Arguments) = c.cmdArgs := by
      rw [← htargets]
    rw [hsync]
    refine ⟨?_, ?_, ?_, ?_, ?_⟩
    · intro hmode
      simp [syncList, syncListRepo, htargets, syncListLoop, hmode, TargetMode.wantsAUR,
        TargetMode.wantsRepo, hargs]
    · intro err hmode hdb
      rcases hmode with hmode | hmode <;>
        simp [syncList, htargets, syncListLoop, hmode, hdb, TargetMode.wantsAUR]
    · intro err hmode hdb hget
      rcases hmode with hmode | hmode <;>
        simp [syncList, htargets, syncListLoop, hmode, hdb, hget, TargetMode.wantsAUR]
    · intro lines hmode hdb hget
      simp [syncList, syncListRepo, htargets, syncListLoop, hmode, hdb, hget,
        TargetMode.wantsAUR, TargetMode.wantsRepo, hargs]
    · intro lines hmode hdb hget
      simp [syncList, syncListRepo, htargets, syncListLoop, hmode, hdb, hget,
        TargetMode.wantsAUR, TargetMode.wantsRepo, hargs]

theorem help_and_list_pass_through_witness :
    (exampleCmd "S" ["h", "s"] ["foo"] .ModeAny).ExistsArg ["h", "help"] = true ∧
    (exampleCmd "S" ["h", "s"] ["foo"] .ModeAny).cmdArgs.Op ≠ "Y" ∧
    (exampleCmd "S" ["h", "s"] ["foo"] .ModeAny).cmdArgs.Op ≠ "yay" ∧
    handleCmd (exampleCmd "S" ["h", "s"] ["foo"] .ModeAny) =
      { actions := [Action.passToPacman ⟨"S", [⟨"h", false⟩, ⟨"s", false⟩], ["foo"]⟩],
        result := none } ∧
    (exampleCmd "S" ["l"] [] .ModeRepo).ExistsArg ["l", "list"] = true ∧
    (exampleCmd "S" ["l"] [] .ModeRepo).cmdArgs.Targets = [] ∧
    handleCmd (exampleCmd "S" ["l"] [] .ModeRepo) =
      { actions := [Action.passToPacman ⟨"S", [⟨"l", false⟩], []⟩], result := none } ∧
    ({ exampleCmd "S" ["l"] [] .ModeAny with LocalDB := some "no local database" }
      : CmdState).LocalDB = some "no local database" ∧
    handleCmd { exampleCmd "S" ["l"] [] .ModeAny with LocalDB := some "no local database" } =
      { actions := [Action.LocalDB], result := some "no local database" } ∧
    handleCmd { exampleCmd "S" ["l"] [] .ModeAUR with
        httpGet := fun _ => .error "connection refused" } =
      { actions := [Action.LocalDB, Action.httpGet "https://aur.archlinux.org/packages.gz"],
        result := some "connection refused" } ∧
    handleCmd (exampleCmd "S" ["l"] [] .ModeAny) =
      { actions := [Action.LocalDB, Action.httpGet "https://aur.archlinux.org/packages.gz",
          Action.Printf "foo", Action.Print, Action.Println "",
          Action.Printf "bar", Action.Println "",
          Action.passToPacman ⟨"S", [⟨"l", false⟩], []⟩],
        result := none } :=
  ⟨rfl, by decide, by decide,
    (help_and_list_pass_through (exampleCmd "S" ["h", "s"] ["foo"] .ModeAny)).1 rfl
      (by decide) (by decide),
    rfl, rfl,
    ((help_and_list_pass_through (exampleCmd "S" ["l"] [] .ModeRepo)).2.2.2 rfl (Or.inl rfl)
      rfl rfl rfl rfl rfl).1 rfl,
    rfl,
    ((help_and_list_pass_through
      { exampleCmd "S" ["l"] [] .ModeAny with LocalDB := some "no local database" }).2.2.2
      rfl (Or.inl rfl) rfl rfl rfl rfl rfl).2.1 "no local database" (Or.inl rfl) rfl,
    ((help_and_list_pass_through
      { exampleCmd "S" ["l"] [] .ModeAUR with
        httpGet := fun _ => .error "connection refused" }).2.2.2
      rfl (Or.inl rfl) rfl rfl rfl rfl rfl).2.2.1 "connection refused" (Or.inr rfl) rfl rfl,
    ((help_and_list_pass_through (exampleCmd "S" ["l"] [] .ModeAny)).2.2.2
      rfl (Or.inl rfl) rfl rfl rfl rfl rfl).2.2.2.1 ["# AUR package list", "foo", "bar"]
      rfl rfl rfl⟩

end Yay
